import Mathlib

/-!
Verification of the advanced-analytics engine of the Savion repository
(backend/app/advanced_analytics.py) against its natural-language
specification.  The Python code is shallowly embedded: Python floats are
modelled as exact rationals (ℚ) except where the code applies the
transcendental functions math.sqrt and math.log, which are modelled with
Real.sqrt and Real.log; Python dicts built by repeated `d[k] += v` are
modelled as association lists updated in place; the in-place date coercion
of compute_basic_aggregates (lines 40-48) is modelled as the explicit list
transformation normalizeTransactions; the ambient datetime.utcnow() read
of compute_weekly_insights is modelled as an explicit clock argument; the
ValueError that math.log raises on a non-positive argument is modelled by
an Option result.
-/

/-- Model of a Python datetime value.  `year`, `month`, `day` are the
calendar fields read by the engine; `tod` is the time of day as a fraction
of a day, so that the total order on datetimes used by
compute_weekly_insights is the order of `absTime` below. -/
structure PyDateTime where
  year : Int
  month : Int
  day : Int
  tod : ℚ
deriving DecidableEq

/-- Days since 1970-01-01 of a civil date (standard days-from-civil
algorithm), giving the timeline position used for datetime comparison and
timedelta arithmetic. -/
def daysFromCivil (y m d : Int) : Int :=
  let yy := if m ≤ 2 then y - 1 else y
  let era := Int.fdiv yy 400
  let yoe := yy - era * 400
  let mm := if m ≤ 2 then m + 9 else m - 3
  let doy := Int.fdiv (153 * mm + 2) 5 + d - 1
  let doe := yoe * 365 + Int.fdiv yoe 4 - Int.fdiv yoe 100 + doy
  era * 146097 + doe - 719468

/-- Position of a datetime on the timeline, measured in days. -/
def absTime (d : PyDateTime) : ℚ :=
  (daysFromCivil d.year d.month d.day : ℚ) + d.tod

/-- The `date` field of a transaction record: a datetime, a still-unparsed
string, or None / absent. -/
inductive PyDate where
  | dt (d : PyDateTime)
  | str (s : String)
  | none
deriving DecidableEq

/-- A transaction record as consumed by the engine.  `type` and `category`
model `tx.get("type")` / `tx.get("category")` (None when the key is
absent); `amount` is the rational value produced by the `_safe_float`
coercion of the raw amount field. -/
structure Tx where
  type : Option String
  amount : ℚ
  category : Option String
  date : PyDate
deriving DecidableEq

/-- Character-by-character lowercase conversion, the kernel-evaluable
model of Python's str.lower (ASCII-faithful). -/
def pyLower (s : String) : String :=
  String.mk (s.data.map Char.toLower)

/-- Model of `(tx.get("type") or "").lower()`: the only falsy strings are
empty, so `getD ""` matches Python's `or ""`. -/
def ttype (tx : Tx) : String :=
  pyLower (tx.type.getD "")

/-- Model of `tx.get("category") or "Other"`: both a missing key and an
empty string are falsy in Python. -/
def catOf (tx : Tx) : String :=
  match tx.category with
  | Option.none => "Other"
  | Option.some s => if s = "" then "Other" else s

/-- The `(year, month)` bucket key of a transaction, when its date is a
datetime (`isinstance(d, datetime)` in the source). -/
def txKey? (tx : Tx) : Option (Int × Int) :=
  match tx.date with
  | PyDate.dt d => Option.some (d.year, d.month)
  | _ => Option.none

/-- Split a character list at every dash, the structural model of
`s.split("-")` used by the date parser. -/
def splitDash : List Char → List (List Char)
  | [] => [[]]
  | c :: rest =>
    match splitDash rest with
    | [] => [[c]]
    | g :: gs => if c = '-' then [] :: g :: gs else (c :: g) :: gs

/-- The numeric value of a digit string. -/
def digitsToNat (cs : List Char) : Nat :=
  cs.foldl (fun n c => n * 10 + (c.toNat - 48)) 0

/-- Model of the composite date parse of compute_basic_aggregates lines
41-48 (datetime.fromisoformat, then strptime "%Y-%m-%d"): strings of the
form YYYY-MM-DD with plausible calendar fields parse to a midnight
datetime, every other string fails.  Both parser stages accept this form;
the engine's behaviour examined by the claims depends only on parse
success producing a datetime and parse failure producing None. -/
def parseDate (s : String) : Option PyDateTime :=
  match splitDash s.data with
  | [ys, ms, ds] =>
    if ys.length = 4 ∧ ms.length = 2 ∧ ds.length = 2 ∧
       ys.all Char.isDigit ∧ ms.all Char.isDigit ∧ ds.all Char.isDigit then
      let y : Int := digitsToNat ys
      let m : Int := digitsToNat ms
      let d : Int := digitsToNat ds
      if 1 ≤ m ∧ m ≤ 12 ∧ 1 ≤ d ∧ d ≤ 31 then
        Option.some { year := y, month := m, day := d, tod := 0 }
      else Option.none
    else Option.none
  | _ => Option.none

/-- The in-place date coercion applied to each record at the start of
compute_basic_aggregates (lines 40-48): a string date is replaced by its
parse, or by None when both parse attempts fail; any other date value is
left untouched, as are all other fields. -/
def normalizeTx (tx : Tx) : Tx :=
  match tx.date with
  | PyDate.str s =>
    { tx with date := match parseDate s with
                      | Option.some d => PyDate.dt d
                      | Option.none => PyDate.none }
  | _ => tx

/-- The post-state of the input record list after the engine's
normalization pass; the source mutates the caller's records, so this is
both the normalized input and the final state of the caller's data. -/
def normalizeTransactions (txs : List Tx) : List Tx :=
  txs.map normalizeTx

/-- Whether the `date` field currently holds an unparsed string. -/
def PyDate.isStr : PyDate → Bool
  | PyDate.str _ => true
  | _ => false

/-- `expense_amounts` (lines 51-55): the amounts of all expense-typed
transactions. -/
def expenseAmounts (txs : List Tx) : List ℚ :=
  (txs.filter (fun tx => ttype tx == "expense")).map (fun tx => tx.amount)

/-- The outlier threshold of lines 58-60: defined when more than two
expense transactions exist; the median is the element at index
`len // 2` of the sorted expense amounts. -/
def outlierThreshold (txs : List Tx) : Option ℚ :=
  let ea := expenseAmounts txs
  if 2 < ea.length then
    let median := (List.insertionSort (fun a b => a ≤ b) ea).getD (ea.length / 2) 0
    Option.some (max (median * 10) 50000)
  else Option.none

/-- `outlier_amounts` (lines 57-61) as a list whose membership is the
set's membership: the expense amounts strictly above the threshold. -/
def outlierAmounts (txs : List Tx) : List ℚ :=
  match outlierThreshold txs with
  | Option.some thr => (expenseAmounts txs).filter (fun a => thr < a)
  | Option.none => []

/-- The per-transaction outlier classification of line 73:
`ttype == "expense" and amount in outlier_amounts`. -/
def isOutlierTx (txs : List Tx) (tx : Tx) : Bool :=
  ttype tx == "expense" && decide (tx.amount ∈ outlierAmounts txs)

/-- One `(year, month)` entry of the `monthly` defaultdict (line 63). -/
structure Bucket where
  income : ℚ := 0
  expense : ℚ := 0
  outlier_expense : ℚ := 0
deriving DecidableEq

/-- Read a key of a Python dict modelled as an association list,
substituting the defaultdict's default value when the key is absent. -/
def lookupD [DecidableEq κ] (d : β) : List (κ × β) → κ → β
  | [], _ => d
  | (k0, v) :: rest, k => if k0 = k then v else lookupD d rest k

/-- `d[k] = f(d[k])` on a Python defaultdict modelled as an association
list: the first entry with the key is updated in place, and a fresh key is
appended (dicts preserve insertion order). -/
def upd [DecidableEq κ] (d : β) : List (κ × β) → κ → (β → β) → List (κ × β)
  | [], k, f => [(k, f d)]
  | (k0, v) :: rest, k, f =>
    if k0 = k then (k0, f v) :: rest else (k0, v) :: upd d rest k f

/-- The accumulator threaded through the main loop of
compute_basic_aggregates (lines 63-102). -/
structure Agg where
  monthly : List ((Int × Int) × Bucket)
  categories : List (String × ℚ)
  total_income : ℚ
  total_expense : ℚ
  total_outlier_expense : ℚ
  amounts : List ℚ

/-- The loop body of compute_basic_aggregates lines 70-102 for one
transaction; `p` is the outlier classification computed once per run
(`p := isOutlierTx txs` with `txs` the normalized list). -/
def aggStep (p : Tx → Bool) (s : Agg) (tx : Tx) : Agg :=
  let t := ttype tx
  let a := tx.amount
  let isOut := p tx
  let s := { s with
    amounts := s.amounts ++
      [if t == "expense" then a else if t == "income" then -a else a] }
  let s :=
    if t == "expense" && !isOut then
      { s with categories := upd 0 s.categories (catOf tx) (fun v => v + a) }
    else s
  match txKey? tx with
  | Option.some k =>
    if t == "income" then
      { s with monthly := upd {} s.monthly k (fun b => { b with income := b.income + a }),
               total_income := s.total_income + a }
    else if isOut then
      { s with monthly := upd {} s.monthly k
                 (fun b => { b with outlier_expense := b.outlier_expense + a }),
               total_outlier_expense := s.total_outlier_expense + a }
    else
      { s with monthly := upd {} s.monthly k (fun b => { b with expense := b.expense + a }),
               total_expense := s.total_expense + a }
  | Option.none =>
    if t == "income" then { s with total_income := s.total_income + a }
    else if isOut then
      { s with total_outlier_expense := s.total_outlier_expense + a }
    else { s with total_expense := s.total_expense + a }

/-- One row of the returned `monthly_series` (lines 104-114). -/
structure MonthRow where
  year : Int
  month : Int
  income : ℚ
  expense : ℚ
  outlier_expense : ℚ
deriving DecidableEq, Inhabited

/-- The dictionary returned by compute_basic_aggregates (lines 116-123). -/
structure Aggregates where
  monthly_series : List MonthRow
  total_income : ℚ
  total_expense : ℚ
  total_outlier_expense : ℚ
  categories : List (String × ℚ)
  amounts : List ℚ

/-- The ascending order on `(year, month)` keys used by
`sorted(monthly.keys())`: lexicographic comparison of integer pairs. -/
def keyLE (a b : Int × Int) : Prop :=
  a.1 < b.1 ∨ (a.1 = b.1 ∧ a.2 ≤ b.2)

instance : DecidableRel keyLE := fun a b => by
  unfold keyLE
  infer_instance

instance : IsTotal (Int × Int) keyLE := by
  refine ⟨fun a b => ?_⟩
  unfold keyLE
  omega

instance : IsTrans (Int × Int) keyLE := by
  refine ⟨fun a b c => ?_⟩
  unfold keyLE
  omega

/-- compute_basic_aggregates (lines 31-123): normalize dates in place,
classify outliers, fold the main loop, then emit the monthly series
sorted ascending by `(year, month)`. -/
def computeBasicAggregates (transactions : List Tx) : Aggregates :=
  let txs := normalizeTransactions transactions
  let st := txs.foldl (aggStep (isOutlierTx txs)) ⟨[], [], 0, 0, 0, []⟩
  let keys := List.insertionSort keyLE (st.monthly.map Prod.fst)
  { monthly_series := keys.map (fun k =>
      let b := lookupD {} st.monthly k
      { year := k.1, month := k.2, income := b.income, expense := b.expense,
        outlier_expense := b.outlier_expense }),
    total_income := st.total_income,
    total_expense := st.total_expense,
    total_outlier_expense := st.total_outlier_expense,
    categories := st.categories,
    amounts := st.amounts }

/-- compute_spending_volatility (lines 125-138): coefficient of variation
of the monthly regular-expense totals, 0 when there are no buckets or the
mean is 0.  The square root forces the result into ℝ. -/
noncomputable def computeSpendingVolatility (monthly_series : List MonthRow) : ℝ :=
  let expenses := monthly_series.map (fun m => m.expense)
  if expenses = [] then 0
  else
    let mean := expenses.sum / (expenses.length : ℚ)
    if mean = 0 then 0
    else
      let variance := (expenses.map (fun x => (x - mean) ^ 2)).sum / (expenses.length : ℚ)
      Real.sqrt (variance : ℝ) / (mean : ℝ)

/-- The independent-variable dispersion `sum((xi - mean_x)**2)` of
simple_linear_forecast (line 154) for `xs = 0..n-1`. -/
def olsDenom (n : Nat) : ℚ :=
  let xs := (List.range n).map (fun i : Nat => (i : ℚ))
  let mean_x := xs.sum / (n : ℚ)
  (xs.map (fun xi => (xi - mean_x) ^ 2)).sum

/-- The regression slope of simple_linear_forecast (lines 155-158): 0 when
the denominator vanishes. -/
def olsSlope (ys : List ℚ) : ℚ :=
  let n := ys.length
  let xs := (List.range n).map (fun i : Nat => (i : ℚ))
  let mean_x := xs.sum / (n : ℚ)
  let mean_y := ys.sum / (n : ℚ)
  let denom := olsDenom n
  if denom = 0 then 0
  else ((xs.zip ys).map (fun q => (q.1 - mean_x) * (q.2 - mean_y))).sum / denom

/-- The regression intercept of simple_linear_forecast (line 159). -/
def olsIntercept (ys : List ℚ) : ℚ :=
  let n := ys.length
  let xs := (List.range n).map (fun i : Nat => (i : ℚ))
  let mean_x := xs.sum / (n : ℚ)
  ys.sum / (n : ℚ) - olsSlope ys * mean_x

/-- simple_linear_forecast (lines 140-164): `periods` least-squares
projections of the monthly expense totals, clamped at 0; `periods` copies
of 0 when the series is empty. -/
def simpleLinearForecast (monthly_series : List MonthRow) (periods : Nat) : List ℚ :=
  let ys := monthly_series.map (fun m => m.expense)
  let n := ys.length
  if n = 0 then List.replicate periods 0
  else (List.range periods).map (fun i : Nat =>
    max 0 (olsIntercept ys + olsSlope ys * ((n : ℚ) + (i : ℚ))))

/-- The 1e-12 guard added inside the logarithm of
compute_diversification_score (line 176), taken as the exact rational. -/
def epsLog : ℚ := 1 / 1000000000000

/-- compute_diversification_score (lines 166-181).  `total` models
`sum(...) or 1.0`; the shares keep the positive raw values only but are
divided by the signed total; a share making the logarithm's argument
non-positive makes math.log raise ValueError, modelled as `none`; a
single share hits the `max_entropy <= 0` early return of 1. -/
noncomputable def computeDiversificationScore (categories : List (String × ℚ)) :
    Option ℝ :=
  let t := (categories.map (fun p => p.2)).sum
  let total := if t = 0 then 1 else t
  let shares := ((categories.map (fun p => p.2)).filter (fun v => 0 < v)).map
    (fun v => v / total)
  if shares = [] then Option.some 0
  else if shares.any (fun s => s + epsLog ≤ 0) then Option.none
  else
    let entropy : ℝ := -((shares.map (fun s : ℚ => (s : ℝ) * Real.log ((s : ℝ) + ((epsLog : ℚ) : ℝ)))).sum)
    let max_entropy : ℝ := Real.log (shares.length : ℝ)
    if max_entropy ≤ 0 then Option.some 1
    else Option.some (entropy / max_entropy)

/-- Python `int(...)` truncation toward zero on a rational. -/
def pyInt (q : ℚ) : Int :=
  if 0 ≤ q then q.floor else -((-q).floor)

/-- estimate_credit_score_from_behaviour (lines 183-193). -/
def estimateCreditScore (payment_consistency dti : ℚ) : Int :=
  let base : ℚ := 650 + (payment_consistency - 7 / 10) * 200 - (dti - 3 / 10) * 200
  pyInt (max 300 (min 850 base))

/-- The `weekly_insights` section of the report (lines 227-231). -/
structure WeeklyInsights where
  total_spending : ℚ
  insights : List String
  recommendations : List String
deriving DecidableEq

/-- `Counter.most_common(1)[0]`: the entry with the largest accumulated
value, earliest-added entry winning ties (most_common's sort is stable on
the counter's insertion order). -/
def mostCommon1 (l : List (String × ℚ)) : Option (String × ℚ) :=
  l.foldl (fun acc p =>
    match acc with
    | Option.none => Option.some p
    | Option.some q => if q.2 < p.2 then Option.some p else Option.some q)
    Option.none

/-- compute_weekly_insights (lines 195-231).  The source reads
datetime.utcnow() on line 199; that ambient read is modelled by the
explicit `now` argument. -/
def computeWeeklyInsights (now : PyDateTime) (transactions : List Tx) :
    WeeklyInsights :=
  let week_start : ℚ := absTime now - 7
  let isDatedAfter := fun (tx : Tx) (lo : ℚ) =>
    match tx.date with
    | PyDate.dt d => lo ≤ absTime d
    | _ => false
  let recent := transactions.filter (fun tx => isDatedAfter tx week_start)
  let total_spent :=
    ((recent.filter (fun tx => !(ttype tx == "income"))).map (fun tx => tx.amount)).sum
  let cat_counter := recent.foldl (fun acc tx =>
    if ttype tx == "income" then acc
    else upd 0 acc (catOf tx) (fun v => v + tx.amount)) []
  let insights :=
    if total_spent = 0 then ["No expenses in the last 7 days."]
    else
      let top := mostCommon1 cat_counter
      let base :=
        match top with
        | Option.some p =>
          ["Top spending category in last 7 days: " ++ p.1 ++ " (₹" ++
            toString (pyInt p.2) ++ ")"]
        | Option.none => []
      let prev_start := week_start - 7
      let prev := transactions.filter (fun tx =>
        match tx.date with
        | PyDate.dt d => prev_start ≤ absTime d ∧ absTime d < week_start
        | _ => false)
      let prev_spent :=
        ((prev.filter (fun tx => !(ttype tx == "income"))).map (fun tx => tx.amount)).sum
      let prev_avg := if prev_spent = 0 then 0 else prev_spent / 7
      let curr_avg := total_spent / 7
      if 0 < prev_avg ∧ prev_avg * (13 / 10) < curr_avg then
        base ++ ["Spending increased significantly vs previous week."]
      else base
  let recommendations :=
    if 0 < total_spent then
      ["Review top categories to reduce discretionary spending."]
    else []
  { total_spending := total_spent, insights := insights,
    recommendations := recommendations }

/-- The five dynamically gated recommendation strings of
build_advanced_analytics lines 385-396, appended in source order to the
initially empty recommendation list. -/
def recDTI : String :=
  "Consider lowering recurring liabilities — your DTI is relatively high."

def recFund : String :=
  "Build an emergency fund covering at least 1–3 months of expenses."

def recVolatile : String :=
  "Your spending is volatile — consider stabilizing discretionary spending."

def recDiversify : String :=
  "Your spending is concentrated in a few categories — review diversification."

def recSavings : String :=
  "Increase savings or reduce expenses to achieve positive monthly savings."

/-- The recommendation generation of build_advanced_analytics lines
386-396: five independently gated appends, in source order, to a list
that starts empty. -/
noncomputable def buildRecommendations (dti emergency_fund_months avg_monthly_savings : ℚ)
    (volatility diversification_score : ℝ) : List String :=
  let recs : List String := []
  let recs := if 1 / 2 < dti then recs ++ [recDTI] else recs
  let recs := if emergency_fund_months < 1 then recs ++ [recFund] else recs
  let recs := if (2 / 5 : ℝ) < volatility then recs ++ [recVolatile] else recs
  let recs := if diversification_score < (2 / 5 : ℝ) then recs ++ [recDiversify] else recs
  let recs := if avg_monthly_savings ≤ 0 then recs ++ [recSavings] else recs
  recs

/-- The descending-by-value order of `sorted(..., key=lambda kv: kv[1],
reverse=True)`. -/
def byValueDesc (a b : String × ℚ) : Prop := b.2 ≤ a.2

instance : DecidableRel byValueDesc := fun a b => by
  unfold byValueDesc
  infer_instance

instance : IsTotal (String × ℚ) byValueDesc := by
  refine ⟨fun a b => ?_⟩
  unfold byValueDesc
  exact le_total b.2 a.2

instance : IsTrans (String × ℚ) byValueDesc := by
  refine ⟨fun a b c h1 h2 => ?_⟩
  unfold byValueDesc at *
  exact h2.trans h1

/-- The `top_categories` expression of build_advanced_analytics line 381:
`sorted(categories.items(), key=lambda kv: kv[1], reverse=True)[:6]`
(a stable sort descending by value, then the first 6 entries). -/
def topCategoriesOf (categories : List (String × ℚ)) : List (String × ℚ) :=
  (List.insertionSort byValueDesc categories).take 6

/-- The `credit_risk` sub-report (lines 333-338). -/
structure CreditRisk where
  dti_ratio : ℚ
  estimated_credit_score : Int
  payment_consistency : ℚ
  risk_level : String

/-- The `liquidity_risk` sub-report (lines 339-344). -/
structure LiquidityRisk where
  emergency_fund_months : ℚ
  income_stability : ℚ
  liquidity_ratio : ℚ
  risk_level : String

/-- The `market_risk` sub-report (lines 345-350). -/
structure MarketRisk where
  spending_volatility : ℝ
  diversification_score : ℝ
  market_exposure : String
  risk_level : String

/-- The `operational_risk` sub-report (lines 351-356). -/
structure OperationalRisk where
  financial_discipline : ℚ
  spending_consistency : ℝ
  goal_achievement_rate : ℚ
  risk_level : String

/-- The `risk_assessment` section (lines 330-360). -/
structure RiskAssessment where
  overall_risk_score : ℝ
  risk_level : String
  credit_risk : CreditRisk
  liquidity_risk : LiquidityRisk
  market_risk : MarketRisk
  operational_risk : OperationalRisk
  recommendations : List String

/-- The `annual_projection` block (lines 367-371). -/
structure AnnualProjection where
  total_income : Int
  total_expenses : Int
  total_savings : Int

/-- The `financial_trajectory` block (lines 364-372). -/
structure FinancialTrajectory where
  income_trend : ℚ
  expense_trend : ℚ
  annual_projection : AnnualProjection

/-- The `predictions` section (lines 361-374). -/
structure Predictions where
  forecast : List ℚ
  average_predicted : ℚ
  financial_trajectory : FinancialTrajectory
  recommendations : List String

/-- The `aggregates` section (lines 377-382). -/
structure AggSection where
  total_income : ℚ
  total_expense : ℚ
  monthly_series : List MonthRow
  top_categories : List (String × ℚ)

/-- The full report returned by build_advanced_analytics. -/
structure Report where
  risk_assessment : RiskAssessment
  predictions : Predictions
  weekly_insights : WeeklyInsights
  aggregates : AggSection

/-- The 1e-9 division guard used on lines 342 and 352, as an exact
rational. -/
def epsDiv : ℚ := 1 / 1000000000

/-- build_advanced_analytics (lines 233-401), from the fetched
transaction list onward (the MongoDB fetch by user id is outside the
engine boundary).  The datetime.utcnow() read inside
compute_weekly_insights is surfaced as the explicit `now` argument; a
ValueError escaping compute_diversification_score propagates, modelled by
`none`. -/
noncomputable def buildAdvancedAnalytics (transactions : List Tx) (now : PyDateTime) :
    Option Report :=
  let aggregates := computeBasicAggregates transactions
  let monthly_series := aggregates.monthly_series
  let total_income := aggregates.total_income
  let total_expense := aggregates.total_expense
  let categories := aggregates.categories
  let months_count : ℚ := max 1 (monthly_series.length : ℚ)
  let avg_monthly_income := total_income / months_count
  let avg_monthly_expense := total_expense / months_count
  let avg_monthly_savings := max 0 (avg_monthly_income - avg_monthly_expense)
  let dti := if 0 < avg_monthly_income then avg_monthly_expense / avg_monthly_income else 1
  let dti := min (max dti 0) 10
  let income_months : ℚ := ((monthly_series.filter (fun m => 0 < m.income)).length : ℚ)
  let payment_consistency := if 0 < months_count then income_months / months_count else 0
  let emergency_fund_months :=
    if 0 < avg_monthly_expense ∧ 0 < avg_monthly_savings then
      avg_monthly_savings * 3 / avg_monthly_expense
    else if 0 < avg_monthly_savings then 3
    else 0
  let volatility := computeSpendingVolatility monthly_series
  match computeDiversificationScore categories with
  | Option.none => Option.none
  | Option.some diversification_score =>
    let estimated_credit_score := estimateCreditScore payment_consistency dti
    let norm_dti := min 1 dti
    let inv_payment := 1 - min 1 payment_consistency
    let inv_diversification : ℝ := 1 - diversification_score
    let overall_risk_score : ℝ :=
      (2 / 5) * (norm_dti : ℝ) + (1 / 4) * (inv_payment : ℝ) +
      (1 / 5) * volatility + (3 / 20) * inv_diversification
    let overall_risk_score := max 0 (min 1 overall_risk_score)
    let risk_level :=
      if overall_risk_score < (33 / 100 : ℝ) then "low"
      else if overall_risk_score < (66 / 100 : ℝ) then "medium"
      else "high"
    let forecast := simpleLinearForecast monthly_series 4
    let weekly := computeWeeklyInsights now transactions
    let recs := buildRecommendations dti emergency_fund_months avg_monthly_savings
      volatility diversification_score
    Option.some
      { risk_assessment :=
          { overall_risk_score := overall_risk_score,
            risk_level := risk_level,
            credit_risk :=
              { dti_ratio := dti,
                estimated_credit_score := estimated_credit_score,
                payment_consistency := payment_consistency,
                risk_level :=
                  if 3 / 5 < dti then "high"
                  else if 2 / 5 < dti then "medium" else "low" },
            liquidity_risk :=
              { emergency_fund_months := emergency_fund_months,
                income_stability := payment_consistency,
                liquidity_ratio :=
                  if 0 < avg_monthly_expense then
                    avg_monthly_income / (avg_monthly_expense + epsDiv)
                  else 0,
                risk_level :=
                  if emergency_fund_months < 1 then "high"
                  else if emergency_fund_months < 3 then "medium" else "low" },
            market_risk :=
              { spending_volatility := volatility,
                diversification_score := diversification_score,
                market_exposure :=
                  if diversification_score < (3 / 10 : ℝ) then "high"
                  else if diversification_score < (3 / 5 : ℝ) then "medium" else "low",
                risk_level :=
                  if (1 / 2 : ℝ) < volatility then "high"
                  else if (1 / 4 : ℝ) < volatility then "medium" else "low" },
            operational_risk :=
              { financial_discipline :=
                  if 0 < avg_monthly_income then
                    min 1 (avg_monthly_savings / (avg_monthly_income + epsDiv))
                  else 0,
                spending_consistency := 1 - volatility,
                goal_achievement_rate := 1 / 2,
                risk_level :=
                  if avg_monthly_savings < 0 then "high"
                  else if avg_monthly_expense * (1 / 5) < avg_monthly_savings then "low"
                  else "medium" },
            recommendations := recs },
        predictions :=
          { forecast := forecast,
            average_predicted :=
              if forecast = [] then 0 else forecast.sum / (forecast.length : ℚ),
            financial_trajectory :=
              { income_trend :=
                  if 1 < monthly_series.length ∧
                     0 < (monthly_series.headD default).income then
                    min 1 (max (-1)
                      (((monthly_series.getLastD default).income -
                        (monthly_series.headD default).income) /
                       ((monthly_series.headD default).income + epsDiv)))
                  else 0,
                expense_trend :=
                  if 1 < monthly_series.length ∧
                     0 < (monthly_series.headD default).expense then
                    min 1 (max (-1)
                      (((monthly_series.getLastD default).expense -
                        (monthly_series.headD default).expense) /
                       ((monthly_series.headD default).expense + epsDiv)))
                  else 0,
                annual_projection :=
                  { total_income := pyInt (avg_monthly_income * 12),
                    total_expenses := pyInt (avg_monthly_expense * 12),
                    total_savings :=
                      pyInt (max 0 ((avg_monthly_income - avg_monthly_expense) * 12)) } },
            recommendations := recs },
        weekly_insights := weekly,
        aggregates :=
          { total_income := total_income,
            total_expense := total_expense,
            monthly_series := monthly_series,
            top_categories := topCategoriesOf categories } }


/-! Specification-side definitions: filter/sum characterizations of the
aggregation, used to state bucket coverage and totals conservation. -/

/-- Whether a transaction is income-typed. -/
def isIncome (tx : Tx) : Bool := ttype tx == "income"

/-- Whether a transaction carries a datetime date. -/
def isDated (tx : Tx) : Bool := (txKey? tx).isSome

/-- Whether a transaction's date lands in the `(year, month)` bucket `k`. -/
def datedAt (k : Int × Int) (tx : Tx) : Bool := txKey? tx == Option.some k

/-- Sum of the amounts of a list of transactions. -/
def amountsSum (l : List Tx) : ℚ := (l.map (fun tx => tx.amount)).sum

/-- Income landing in bucket `k`. -/
def incomeAtKey (txs : List Tx) (k : Int × Int) : ℚ :=
  amountsSum (txs.filter (fun tx => datedAt k tx && isIncome tx))

/-- Regular (non-income, non-outlier-classified) spend landing in bucket
`k` under outlier classifier `p`. -/
def regularAtKey (p : Tx → Bool) (txs : List Tx) (k : Int × Int) : ℚ :=
  amountsSum (txs.filter (fun tx => datedAt k tx && !(isIncome tx) && !(p tx)))

/-- Outlier-classified spend landing in bucket `k`. -/
def outlierAtKey (p : Tx → Bool) (txs : List Tx) (k : Int × Int) : ℚ :=
  amountsSum (txs.filter (fun tx => datedAt k tx && !(isIncome tx) && p tx))

/-- All income, dated or not. -/
def incomeAll (txs : List Tx) : ℚ :=
  amountsSum (txs.filter (fun tx => isIncome tx))

/-- All regular (non-income, non-outlier) spend, dated or not. -/
def regularAll (p : Tx → Bool) (txs : List Tx) : ℚ :=
  amountsSum (txs.filter (fun tx => !(isIncome tx) && !(p tx)))

/-- All outlier-classified spend, dated or not. -/
def outlierAll (p : Tx → Bool) (txs : List Tx) : ℚ :=
  amountsSum (txs.filter (fun tx => !(isIncome tx) && p tx))

/-- Income of transactions without a valid date (the unknown-date
fallback of lines 95-102). -/
def undatedIncome (txs : List Tx) : ℚ :=
  amountsSum (txs.filter (fun tx => !(isDated tx) && isIncome tx))

/-- Regular spend of transactions without a valid date. -/
def undatedRegular (p : Tx → Bool) (txs : List Tx) : ℚ :=
  amountsSum (txs.filter (fun tx => !(isDated tx) && (!(isIncome tx) && !(p tx))))

/-- Outlier spend of transactions without a valid date. -/
def undatedOutlier (p : Tx → Bool) (txs : List Tx) : ℚ :=
  amountsSum (txs.filter (fun tx => !(isDated tx) && (!(isIncome tx) && p tx)))

/-- Per-category sum of regular expense-typed spend: what the
`categories` dict accumulates on line 79. -/
def catAtSum (p : Tx → Bool) (txs : List Tx) (c : String) : ℚ :=
  amountsSum (txs.filter (fun tx => (ttype tx == "expense" && !(p tx)) && catOf tx == c))

/-- The bucket key of a monthly-series row. -/
def rowKey (r : MonthRow) : Int × Int := (r.year, r.month)

/-- A mapping that spends `v` uniformly across `k` distinct categories,
used to examine the uniform-distribution clause of the diversification
claim. -/
def uniformCats (k : Nat) (v : ℚ) : List (String × ℚ) :=
  (List.range k).map (fun i => (toString i, v))

/-- The four-month expense series 100, 200, 300, 400 of scenario
example 4. -/
def exampleSeries : List MonthRow :=
  [⟨2024, 1, 0, 100, 0⟩, ⟨2024, 2, 0, 200, 0⟩, ⟨2024, 3, 0, 300, 0⟩,
   ⟨2024, 4, 0, 400, 0⟩]

/-- The invariant carried through the aggregation loop: after processing
`done`, the accumulator fields equal their filter/sum characterizations
and the monthly dict has well-formed keys. -/
def AggInv (p : Tx → Bool) (done : List Tx) (s : Agg) : Prop :=
  (∀ k, lookupD {} s.monthly k =
     { income := incomeAtKey done k, expense := regularAtKey p done k,
       outlier_expense := outlierAtKey p done k })
  ∧ (s.monthly.map Prod.fst).Nodup
  ∧ (∀ tx ∈ done, ∀ k, txKey? tx = Option.some k → k ∈ s.monthly.map Prod.fst)
  ∧ (s.monthly.map (fun q => q.2.income)).sum =
      amountsSum (done.filter (fun tx => isDated tx && isIncome tx))
  ∧ (s.monthly.map (fun q => q.2.expense)).sum =
      amountsSum (done.filter (fun tx => isDated tx && (!(isIncome tx) && !(p tx))))
  ∧ (s.monthly.map (fun q => q.2.outlier_expense)).sum =
      amountsSum (done.filter (fun tx => isDated tx && (!(isIncome tx) && p tx)))
  ∧ s.total_income = incomeAll done
  ∧ s.total_expense = regularAll p done
  ∧ s.total_outlier_expense = outlierAll p done
  ∧ (∀ c, lookupD 0 s.categories c = catAtSum p done c)

/-- The folded accumulator state of compute_basic_aggregates for a given
input list. -/
def aggStateOf (transactions : List Tx) : Agg :=
  (normalizeTransactions transactions).foldl
    (aggStep (isOutlierTx (normalizeTransactions transactions))) ⟨[], [], 0, 0, 0, []⟩

/-- The sorted monthly series built from an accumulator state
(lines 104-114). -/
def seriesOf (st : Agg) : List MonthRow :=
  (List.insertionSort keyLE (st.monthly.map Prod.fst)).map (fun k =>
    let b := lookupD {} st.monthly k
    { year := k.1, month := k.2, income := b.income, expense := b.expense,
      outlier_expense := b.outlier_expense })

/-! Lemmas about the association-list model of Python dicts. -/

theorem lookupD_upd_self [DecidableEq κ] (d : β) (l : List (κ × β)) (k : κ)
    (f : β → β) : lookupD d (upd d l k f) k = f (lookupD d l k) := by
  induction l with
  | nil => simp [upd, lookupD]
  | cons hd tl ih =>
    obtain ⟨k0, v⟩ := hd
    by_cases h : k0 = k
    · subst h; simp [upd, lookupD]
    · simp [upd, lookupD, h, ih]

theorem lookupD_upd_ne [DecidableEq κ] (d : β) (l : List (κ × β)) {k k' : κ}
    (f : β → β) (h : k ≠ k') :
    lookupD d (upd d l k f) k' = lookupD d l k' := by
  induction l with
  | nil => simp [upd, lookupD, h]
  | cons hd tl ih =>
    obtain ⟨k0, v⟩ := hd
    by_cases h0 : k0 = k
    · subst h0; simp [upd, lookupD, h]
    · simp [upd, lookupD, h0, ih]

theorem keys_upd [DecidableEq κ] (d : β) (l : List (κ × β)) (k : κ) (f : β → β) :
    (upd d l k f).map Prod.fst =
      if k ∈ l.map Prod.fst then l.map Prod.fst else l.map Prod.fst ++ [k] := by
  induction l with
  | nil => simp [upd]
  | cons hd tl ih =>
    obtain ⟨k0, v⟩ := hd
    by_cases h0 : k0 = k
    · subst h0; simp [upd]
    · have hne : ¬ k = k0 := fun h => h0 h.symm
      simp only [upd, if_neg h0, List.map_cons, ih, List.mem_cons]
      by_cases hmem : k ∈ tl.map Prod.fst
      · simp [hmem, hne]
      · simp [hmem, hne]

theorem nodup_keys_upd [DecidableEq κ] (d : β) (l : List (κ × β)) (k : κ)
    (f : β → β) (h : (l.map Prod.fst).Nodup) :
    ((upd d l k f).map Prod.fst).Nodup := by
  rw [keys_upd]
  by_cases hmem : k ∈ l.map Prod.fst
  · simpa [hmem]
  · simpa [hmem, List.nodup_append] using h

theorem mem_keys_upd_self [DecidableEq κ] (d : β) (l : List (κ × β)) (k : κ)
    (f : β → β) : k ∈ (upd d l k f).map Prod.fst := by
  rw [keys_upd]
  by_cases hmem : k ∈ l.map Prod.fst <;> simp [hmem]

theorem mem_keys_upd_of_mem [DecidableEq κ] (d : β) (l : List (κ × β)) (k k' : κ)
    (f : β → β) (h : k' ∈ l.map Prod.fst) : k' ∈ (upd d l k f).map Prod.fst := by
  rw [keys_upd]
  by_cases hmem : k ∈ l.map Prod.fst <;> simp [hmem, h]

theorem sumBy_upd [DecidableEq κ] (g : β → ℚ) (d : β) (l : List (κ × β)) (k : κ)
    (f : β → β) (δ : ℚ) (hf : ∀ b, g (f b) = g b + δ) (hd : g d = 0) :
    ((upd d l k f).map (fun q => g q.2)).sum =
      (l.map (fun q => g q.2)).sum + δ := by
  induction l with
  | nil => simp [upd, hf, hd]
  | cons hd0 tl ih =>
    obtain ⟨k0, v⟩ := hd0
    by_cases h0 : k0 = k
    · subst h0; simp [upd, hf]; ring
    · simp only [upd, if_neg h0, List.map_cons, List.sum_cons, ih]; ring

theorem sumIncome_upd (l : List ((Int × Int) × Bucket)) (k : Int × Int)
    (f : Bucket → Bucket) (δ : ℚ) (hf : ∀ b, (f b).income = b.income + δ) :
    ((upd {} l k f).map (fun q => q.2.income)).sum =
      (l.map (fun q => q.2.income)).sum + δ := by
  simpa using sumBy_upd (fun b => b.income) {} l k f δ hf rfl

theorem sumExpense_upd (l : List ((Int × Int) × Bucket)) (k : Int × Int)
    (f : Bucket → Bucket) (δ : ℚ) (hf : ∀ b, (f b).expense = b.expense + δ) :
    ((upd {} l k f).map (fun q => q.2.expense)).sum =
      (l.map (fun q => q.2.expense)).sum + δ := by
  simpa using sumBy_upd (fun b => b.expense) {} l k f δ hf rfl

theorem sumOutlier_upd (l : List ((Int × Int) × Bucket)) (k : Int × Int)
    (f : Bucket → Bucket) (δ : ℚ)
    (hf : ∀ b, (f b).outlier_expense = b.outlier_expense + δ) :
    ((upd {} l k f).map (fun q => q.2.outlier_expense)).sum =
      (l.map (fun q => q.2.outlier_expense)).sum + δ := by
  simpa using sumBy_upd (fun b => b.outlier_expense) {} l k f δ hf rfl

theorem sum_map_lookup [DecidableEq κ] (d : β) (g : β → ℚ) (l : List (κ × β))
    (h : (l.map Prod.fst).Nodup) :
    ((l.map Prod.fst).map (fun k => g (lookupD d l k))).sum =
      (l.map (fun q => g q.2)).sum := by
  induction l with
  | nil => simp
  | cons hd tl ih =>
    obtain ⟨k0, v⟩ := hd
    simp only [List.map_cons, List.sum_cons, List.nodup_cons] at h ⊢
    have hcongr : ∀ k ∈ tl.map Prod.fst,
        g (lookupD d ((k0, v) :: tl) k) = g (lookupD d tl k) := by
      intro k hk
      have : ¬ k0 = k := fun hkk => h.1 (hkk ▸ hk)
      simp [lookupD, this]
    rw [List.map_congr_left hcongr, ih h.2]
    simp [lookupD]

theorem amountsSum_filter_snoc (q : Tx → Bool) (done : List Tx) (tx : Tx) :
    amountsSum ((done ++ [tx]).filter q) =
      amountsSum (done.filter q) + (if q tx then tx.amount else 0) := by
  by_cases h : q tx = true <;>
    simp [amountsSum, List.filter_append, List.filter_cons, h]

theorem amountsSum_filter_split (r q : Tx → Bool) (l : List Tx) :
    amountsSum (l.filter q) =
      amountsSum (l.filter (fun tx => r tx && q tx)) +
      amountsSum (l.filter (fun tx => !(r tx) && q tx)) := by
  induction l with
  | nil => simp [amountsSum]
  | cons tx tl ih =>
    by_cases hr : r tx = true <;> by_cases hq : q tx = true <;>
      simp [amountsSum, List.filter_cons, hr, hq] at ih ⊢ <;> linarith

theorem incomeAtKey_snoc (done : List Tx) (tx : Tx) (k : Int × Int) :
    incomeAtKey (done ++ [tx]) k =
      incomeAtKey done k + (if datedAt k tx && isIncome tx then tx.amount else 0) :=
  amountsSum_filter_snoc _ _ _

theorem regularAtKey_snoc (p : Tx → Bool) (done : List Tx) (tx : Tx) (k : Int × Int) :
    regularAtKey p (done ++ [tx]) k =
      regularAtKey p done k +
        (if datedAt k tx && !(isIncome tx) && !(p tx) then tx.amount else 0) :=
  amountsSum_filter_snoc _ _ _

theorem outlierAtKey_snoc (p : Tx → Bool) (done : List Tx) (tx : Tx) (k : Int × Int) :
    outlierAtKey p (done ++ [tx]) k =
      outlierAtKey p done k +
        (if datedAt k tx && !(isIncome tx) && p tx then tx.amount else 0) :=
  amountsSum_filter_snoc _ _ _

theorem incomeAll_snoc (done : List Tx) (tx : Tx) :
    incomeAll (done ++ [tx]) =
      incomeAll done + (if isIncome tx then tx.amount else 0) :=
  amountsSum_filter_snoc _ _ _

theorem regularAll_snoc (p : Tx → Bool) (done : List Tx) (tx : Tx) :
    regularAll p (done ++ [tx]) =
      regularAll p done + (if !(isIncome tx) && !(p tx) then tx.amount else 0) :=
  amountsSum_filter_snoc _ _ _

theorem outlierAll_snoc (p : Tx → Bool) (done : List Tx) (tx : Tx) :
    outlierAll p (done ++ [tx]) =
      outlierAll p done + (if !(isIncome tx) && p tx then tx.amount else 0) :=
  amountsSum_filter_snoc _ _ _

theorem catAtSum_snoc (p : Tx → Bool) (done : List Tx) (tx : Tx) (c : String) :
    catAtSum p (done ++ [tx]) c =
      catAtSum p done c +
        (if (ttype tx == "expense" && !(p tx)) && catOf tx == c then tx.amount else 0) :=
  amountsSum_filter_snoc _ _ _

theorem aggInv_step (p : Tx → Bool) (done : List Tx) (s : Agg) (tx : Tx)
    (h : AggInv p done s) : AggInv p (done ++ [tx]) (aggStep p s tx) := by
  obtain ⟨h1, h2, h3, h4, h5, h6, h7, h8, h9, h10⟩ := h
  cases hk : txKey? tx with
  | none =>
    have hdated : isDated tx = false := by simp [isDated, hk]
    have hmem3 : ∀ tx' ∈ done ++ [tx], ∀ k, txKey? tx' = Option.some k →
        k ∈ s.monthly.map Prod.fst := by
      intro tx' htx' k hkey
      rcases List.mem_append.mp htx' with hmem | hmem
      · exact h3 tx' hmem k hkey
      · simp at hmem; subst hmem; rw [hk] at hkey; cases hkey
    cases hinc : ttype tx == "income" with
    | true =>
      have hinc' : ttype tx = "income" := by simpa using hinc
      have hexp : (ttype tx == "expense") = false := by simp [hinc']
      have hstep : aggStep p s tx = { s with
          amounts := s.amounts ++ [-tx.amount],
          total_income := s.total_income + tx.amount } := by
        simp [aggStep, hk, hinc, hexp]
      rw [hstep]
      unfold AggInv
      dsimp only
      refine ⟨?_, h2, hmem3, ?_, ?_, ?_, ?_, ?_, ?_, ?_⟩
      · intro k
        have hda : datedAt k tx = false := by simp [datedAt, hk]
        rw [incomeAtKey_snoc, regularAtKey_snoc, outlierAtKey_snoc, h1 k]
        simp [hda]
      · rw [amountsSum_filter_snoc, ← h4]; simp [hdated]
      · rw [amountsSum_filter_snoc, ← h5]; simp [hdated]
      · rw [amountsSum_filter_snoc, ← h6]; simp [hdated]
      · rw [incomeAll_snoc, ← h7]; simp [isIncome, hinc]
      · rw [regularAll_snoc, ← h8]; simp [isIncome, hinc]
      · rw [outlierAll_snoc, ← h9]; simp [isIncome, hinc]
      · intro c
        rw [catAtSum_snoc, ← h10 c]
        simp [hexp]
    | false =>
      cases hp : p tx with
      | true =>
        have hstep : aggStep p s tx = { s with
            amounts := s.amounts ++ [tx.amount],
            total_outlier_expense := s.total_outlier_expense + tx.amount } := by
          simp [aggStep, hk, hinc, hp]
        rw [hstep]
        unfold AggInv
        dsimp only
        refine ⟨?_, h2, hmem3, ?_, ?_, ?_, ?_, ?_, ?_, ?_⟩
        · intro k
          have hda : datedAt k tx = false := by simp [datedAt, hk]
          rw [incomeAtKey_snoc, regularAtKey_snoc, outlierAtKey_snoc, h1 k]
          simp [hda]
        · rw [amountsSum_filter_snoc, ← h4]; simp [hdated]
        · rw [amountsSum_filter_snoc, ← h5]; simp [hdated]
        · rw [amountsSum_filter_snoc, ← h6]; simp [hdated]
        · rw [incomeAll_snoc, ← h7]; simp [isIncome, hinc]
        · rw [regularAll_snoc, ← h8]; simp [isIncome, hinc, hp]
        · rw [outlierAll_snoc, ← h9]; simp [isIncome, hinc, hp]
        · intro c
          rw [catAtSum_snoc, ← h10 c]
          simp [hp]
      | false =>
        cases hexp : ttype tx == "expense" with
        | true =>
          have hstep : aggStep p s tx = { s with
              amounts := s.amounts ++ [tx.amount],
              categories := upd 0 s.categories (catOf tx) (fun v => v + tx.amount),
              total_expense := s.total_expense + tx.amount } := by
            simp [aggStep, hk, hinc, hp, hexp]
          rw [hstep]
          unfold AggInv
          dsimp only
          refine ⟨?_, h2, hmem3, ?_, ?_, ?_, ?_, ?_, ?_, ?_⟩
          · intro k
            have hda : datedAt k tx = false := by simp [datedAt, hk]
            rw [incomeAtKey_snoc, regularAtKey_snoc, outlierAtKey_snoc, h1 k]
            simp [hda]
          · rw [amountsSum_filter_snoc, ← h4]; simp [hdated]
          · rw [amountsSum_filter_snoc, ← h5]; simp [hdated]
          · rw [amountsSum_filter_snoc, ← h6]; simp [hdated]
          · rw [incomeAll_snoc, ← h7]; simp [isIncome, hinc]
          · rw [regularAll_snoc, ← h8]; simp [isIncome, hinc, hp]
          · rw [outlierAll_snoc, ← h9]; simp [isIncome, hinc, hp]
          · intro c
            rw [catAtSum_snoc]
            by_cases hc : catOf tx = c
            · subst hc
              rw [lookupD_upd_self, h10 (catOf tx)]
              simp [hexp, hp]
            · rw [lookupD_upd_ne _ _ _ hc, h10 c]
              have : (catOf tx == c) = false := by simp [hc]
              simp [this]
        | false =>
          have hstep : aggStep p s tx = { s with
              amounts := s.amounts ++ [tx.amount],
              total_expense := s.total_expense + tx.amount } := by
            simp [aggStep, hk, hinc, hp, hexp]
          rw [hstep]
          unfold AggInv
          dsimp only
          refine ⟨?_, h2, hmem3, ?_, ?_, ?_, ?_, ?_, ?_, ?_⟩
          · intro k
            have hda : datedAt k tx = false := by simp [datedAt, hk]
            rw [incomeAtKey_snoc, regularAtKey_snoc, outlierAtKey_snoc, h1 k]
            simp [hda]
          · rw [amountsSum_filter_snoc, ← h4]; simp [hdated]
          · rw [amountsSum_filter_snoc, ← h5]; simp [hdated]
          · rw [amountsSum_filter_snoc, ← h6]; simp [hdated]
          · rw [incomeAll_snoc, ← h7]; simp [isIncome, hinc]
          · rw [regularAll_snoc, ← h8]; simp [isIncome, hinc, hp]
          · rw [outlierAll_snoc, ← h9]; simp [isIncome, hinc, hp]
          · intro c
            rw [catAtSum_snoc, ← h10 c]
            simp [hexp]
  | some k0 =>
    have hdated : isDated tx = true := by simp [isDated, hk]
    have hmem3 : ∀ (m : List ((Int × Int) × Bucket)) (f : Bucket → Bucket),
        (∀ k, k ∈ s.monthly.map Prod.fst → k ∈ m.map Prod.fst) →
        k0 ∈ m.map Prod.fst →
        ∀ tx' ∈ done ++ [tx], ∀ k, txKey? tx' = Option.some k →
          k ∈ m.map Prod.fst := by
      intro m f hsub hself tx' htx' k hkey
      rcases List.mem_append.mp htx' with hmem | hmem
      · exact hsub k (h3 tx' hmem k hkey)
      · simp at hmem; subst hmem
        rw [hk] at hkey
        cases hkey
        exact hself
    cases hinc : ttype tx == "income" with
    | true =>
      have hinc' : ttype tx = "income" := by simpa using hinc
      have hexp : (ttype tx == "expense") = false := by simp [hinc']
      have hstep : aggStep p s tx = { s with
          amounts := s.amounts ++ [-tx.amount],
          monthly := upd {} s.monthly k0
            (fun b => { b with income := b.income + tx.amount }),
          total_income := s.total_income + tx.amount } := by
        simp [aggStep, hk, hinc, hexp]
      rw [hstep]
      unfold AggInv
      dsimp only
      refine ⟨?_, nodup_keys_upd _ _ _ _ h2,
        hmem3 _ (fun b => { b with income := b.income + tx.amount })
          (fun k hk2 => mem_keys_upd_of_mem _ _ _ _ _ hk2)
          (mem_keys_upd_self _ _ _ _), ?_, ?_, ?_, ?_, ?_, ?_, ?_⟩
      · intro k
        by_cases hkk : k0 = k
        · subst hkk
          rw [lookupD_upd_self, h1 k0, incomeAtKey_snoc, regularAtKey_snoc,
            outlierAtKey_snoc]
          have hda : datedAt k0 tx = true := by simp [datedAt, hk]
          simp [hda, isIncome, hinc]
        · rw [lookupD_upd_ne _ _ _ hkk, h1 k, incomeAtKey_snoc, regularAtKey_snoc,
            outlierAtKey_snoc]
          have hda : datedAt k tx = false := by simp [datedAt, hk, hkk]
          simp [hda]
      · rw [amountsSum_filter_snoc,
          sumIncome_upd _ _ _ tx.amount (fun b => rfl), ← h4]
        simp [hdated, isIncome, hinc]
      · rw [amountsSum_filter_snoc,
          sumExpense_upd _ _ _ 0 (fun b => by simp), ← h5]
        simp [hdated, isIncome, hinc]
      · rw [amountsSum_filter_snoc,
          sumOutlier_upd _ _ _ 0 (fun b => by simp),
          ← h6]
        simp [hdated, isIncome, hinc]
      · rw [incomeAll_snoc, ← h7]; simp [isIncome, hinc]
      · rw [regularAll_snoc, ← h8]; simp [isIncome, hinc]
      · rw [outlierAll_snoc, ← h9]; simp [isIncome, hinc]
      · intro c
        rw [catAtSum_snoc, ← h10 c]
        simp [hexp]
    | false =>
      cases hp : p tx with
      | true =>
        have hstep : aggStep p s tx = { s with
            amounts := s.amounts ++ [tx.amount],
            monthly := upd {} s.monthly k0
              (fun b => { b with outlier_expense := b.outlier_expense + tx.amount }),
            total_outlier_expense := s.total_outlier_expense + tx.amount } := by
          simp [aggStep, hk, hinc, hp]
        rw [hstep]
        unfold AggInv
        dsimp only
        refine ⟨?_, nodup_keys_upd _ _ _ _ h2,
          hmem3 _ (fun b => { b with outlier_expense := b.outlier_expense + tx.amount })
            (fun k hk2 => mem_keys_upd_of_mem _ _ _ _ _ hk2)
            (mem_keys_upd_self _ _ _ _), ?_, ?_, ?_, ?_, ?_, ?_, ?_⟩
        · intro k
          by_cases hkk : k0 = k
          · subst hkk
            rw [lookupD_upd_self, h1 k0, incomeAtKey_snoc, regularAtKey_snoc,
              outlierAtKey_snoc]
            have hda : datedAt k0 tx = true := by simp [datedAt, hk]
            simp [hda, isIncome, hinc, hp]
          · rw [lookupD_upd_ne _ _ _ hkk, h1 k, incomeAtKey_snoc, regularAtKey_snoc,
              outlierAtKey_snoc]
            have hda : datedAt k tx = false := by simp [datedAt, hk, hkk]
            simp [hda]
        · rw [amountsSum_filter_snoc,
            sumIncome_upd _ _ _ 0 (fun b => by simp), ← h4]
          simp [hdated, isIncome, hinc]
        · rw [amountsSum_filter_snoc,
            sumExpense_upd _ _ _ 0 (fun b => by simp), ← h5]
          simp [hdated, isIncome, hinc, hp]
        · rw [amountsSum_filter_snoc,
            sumOutlier_upd _ _ _ tx.amount (fun b => rfl), ← h6]
          simp [hdated, isIncome, hinc, hp]
        · rw [incomeAll_snoc, ← h7]; simp [isIncome, hinc]
        · rw [regularAll_snoc, ← h8]; simp [isIncome, hinc, hp]
        · rw [outlierAll_snoc, ← h9]; simp [isIncome, hinc, hp]
        · intro c
          rw [catAtSum_snoc, ← h10 c]
          simp [hp]
      | false =>
        cases hexp : ttype tx == "expense" with
        | true =>
          have hstep : aggStep p s tx = { s with
              amounts := s.amounts ++ [tx.amount],
              categories := upd 0 s.categories (catOf tx) (fun v => v + tx.amount),
              monthly := upd {} s.monthly k0
                (fun b => { b with expense := b.expense + tx.amount }),
              total_expense := s.total_expense + tx.amount } := by
            simp [aggStep, hk, hinc, hp, hexp]
          rw [hstep]
          unfold AggInv
          dsimp only
          refine ⟨?_, nodup_keys_upd _ _ _ _ h2,
            hmem3 _ (fun b => { b with expense := b.expense + tx.amount })
              (fun k hk2 => mem_keys_upd_of_mem _ _ _ _ _ hk2)
              (mem_keys_upd_self _ _ _ _), ?_, ?_, ?_, ?_, ?_, ?_, ?_⟩
          · intro k
            by_cases hkk : k0 = k
            · subst hkk
              rw [lookupD_upd_self, h1 k0, incomeAtKey_snoc, regularAtKey_snoc,
                outlierAtKey_snoc]
              have hda : datedAt k0 tx = true := by simp [datedAt, hk]
              simp [hda, isIncome, hinc, hp]
            · rw [lookupD_upd_ne _ _ _ hkk, h1 k, incomeAtKey_snoc,
                regularAtKey_snoc, outlierAtKey_snoc]
              have hda : datedAt k tx = false := by simp [datedAt, hk, hkk]
              simp [hda]
          · rw [amountsSum_filter_snoc,
              sumIncome_upd _ _ _ 0 (fun b => by simp), ← h4]
            simp [hdated, isIncome, hinc]
          · rw [amountsSum_filter_snoc,
              sumExpense_upd _ _ _ tx.amount (fun b => rfl),
              ← h5]
            simp [hdated, isIncome, hinc, hp]
          · rw [amountsSum_filter_snoc,
              sumOutlier_upd _ _ _ 0 (fun b => by simp), ← h6]
            simp [hdated, isIncome, hinc, hp]
          · rw [incomeAll_snoc, ← h7]; simp [isIncome, hinc]
          · rw [regularAll_snoc, ← h8]; simp [isIncome, hinc, hp]
          · rw [outlierAll_snoc, ← h9]; simp [isIncome, hinc, hp]
          · intro c
            rw [catAtSum_snoc]
            by_cases hc : catOf tx = c
            · subst hc
              rw [lookupD_upd_self, h10 (catOf tx)]
              simp [hexp, hp]
            · rw [lookupD_upd_ne _ _ _ hc, h10 c]
              have : (catOf tx == c) = false := by simp [hc]
              simp [this]
        | false =>
          have hstep : aggStep p s tx = { s with
              amounts := s.amounts ++ [tx.amount],
              monthly := upd {} s.monthly k0
                (fun b => { b with expense := b.expense + tx.amount }),
              total_expense := s.total_expense + tx.amount } := by
            simp [aggStep, hk, hinc, hp, hexp]
          rw [hstep]
          unfold AggInv
          dsimp only
          refine ⟨?_, nodup_keys_upd _ _ _ _ h2,
            hmem3 _ (fun b => { b with expense := b.expense + tx.amount })
              (fun k hk2 => mem_keys_upd_of_mem _ _ _ _ _ hk2)
              (mem_keys_upd_self _ _ _ _), ?_, ?_, ?_, ?_, ?_, ?_, ?_⟩
          · intro k
            by_cases hkk : k0 = k
            · subst hkk
              rw [lookupD_upd_self, h1 k0, incomeAtKey_snoc, regularAtKey_snoc,
                outlierAtKey_snoc]
              have hda : datedAt k0 tx = true := by simp [datedAt, hk]
              simp [hda, isIncome, hinc, hp]
            · rw [lookupD_upd_ne _ _ _ hkk, h1 k, incomeAtKey_snoc,
                regularAtKey_snoc, outlierAtKey_snoc]
              have hda : datedAt k tx = false := by simp [datedAt, hk, hkk]
              simp [hda]
          · rw [amountsSum_filter_snoc,
              sumIncome_upd _ _ _ 0 (fun b => by simp), ← h4]
            simp [hdated, isIncome, hinc]
          · rw [amountsSum_filter_snoc,
              sumExpense_upd _ _ _ tx.amount (fun b => rfl),
              ← h5]
            simp [hdated, isIncome, hinc, hp]
          · rw [amountsSum_filter_snoc,
              sumOutlier_upd _ _ _ 0 (fun b => by simp), ← h6]
            simp [hdated, isIncome, hinc, hp]
          · rw [incomeAll_snoc, ← h7]; simp [isIncome, hinc]
          · rw [regularAll_snoc, ← h8]; simp [isIncome, hinc, hp]
          · rw [outlierAll_snoc, ← h9]; simp [isIncome, hinc, hp]
          · intro c
            rw [catAtSum_snoc, ← h10 c]
            simp [hexp]

theorem aggInv_foldl (p : Tx → Bool) (txs : List Tx) :
    ∀ (done : List Tx) (s : Agg), AggInv p done s →
      AggInv p (done ++ txs) (txs.foldl (aggStep p) s) := by
  induction txs with
  | nil => intro done s h; simpa using h
  | cons tx rest ih =>
    intro done s h
    have h2 := ih (done ++ [tx]) (aggStep p s tx) (aggInv_step p done s tx h)
    simpa [List.append_assoc] using h2

theorem aggInv_init (p : Tx → Bool) : AggInv p [] ⟨[], [], 0, 0, 0, []⟩ := by
  unfold AggInv
  refine ⟨?_, by simp, by simp, ?_, ?_, ?_, ?_, ?_, ?_, ?_⟩ <;>
    simp [lookupD, incomeAtKey, regularAtKey, outlierAtKey, incomeAll, regularAll,
      outlierAll, catAtSum, amountsSum]

theorem aggStateOf_inv (transactions : List Tx) :
    AggInv (isOutlierTx (normalizeTransactions transactions))
      (normalizeTransactions transactions) (aggStateOf transactions) := by
  have h := aggInv_foldl (isOutlierTx (normalizeTransactions transactions))
    (normalizeTransactions transactions) [] ⟨[], [], 0, 0, 0, []⟩
    (aggInv_init _)
  simpa [aggStateOf] using h

theorem computeBasicAggregates_eq (transactions : List Tx) :
    computeBasicAggregates transactions =
      { monthly_series := seriesOf (aggStateOf transactions),
        total_income := (aggStateOf transactions).total_income,
        total_expense := (aggStateOf transactions).total_expense,
        total_outlier_expense := (aggStateOf transactions).total_outlier_expense,
        categories := (aggStateOf transactions).categories,
        amounts := (aggStateOf transactions).amounts } := rfl

theorem seriesOf_map_rowKey (st : Agg) :
    (seriesOf st).map rowKey = List.insertionSort keyLE (st.monthly.map Prod.fst) := by
  unfold seriesOf
  rw [List.map_map]
  exact List.map_congr_left (fun a _ => rfl) |>.trans (List.map_id _)

theorem seriesOf_spec (p : Tx → Bool) (txs : List Tx) (st : Agg)
    (h : AggInv p txs st) :
    ((seriesOf st).map rowKey).Nodup
    ∧ (∀ r ∈ seriesOf st,
        r.income = incomeAtKey txs (rowKey r) ∧
        r.expense = regularAtKey p txs (rowKey r) ∧
        r.outlier_expense = outlierAtKey p txs (rowKey r))
    ∧ (∀ tx ∈ txs, ∀ k, txKey? tx = Option.some k →
        k ∈ (seriesOf st).map rowKey)
    ∧ List.Pairwise keyLE ((seriesOf st).map rowKey)
    ∧ st.total_income =
        ((seriesOf st).map (fun r => r.income)).sum + undatedIncome txs
    ∧ st.total_expense =
        ((seriesOf st).map (fun r => r.expense)).sum + undatedRegular p txs
    ∧ st.total_outlier_expense =
        ((seriesOf st).map (fun r => r.outlier_expense)).sum + undatedOutlier p txs := by
  obtain ⟨h1, h2, h3, h4, h5, h6, h7, h8, h9, h10⟩ := h
  have hperm : List.Perm (List.insertionSort keyLE (st.monthly.map Prod.fst)) (st.monthly.map Prod.fst) :=
    List.perm_insertionSort _ _
  have hkeys := seriesOf_map_rowKey st
  refine ⟨?_, ?_, ?_, ?_, ?_, ?_, ?_⟩
  · rw [hkeys]
    exact hperm.nodup_iff.mpr h2
  · intro r hr
    obtain ⟨k, hk, hrk⟩ := List.mem_map.mp hr
    subst hrk
    refine ⟨?_, ?_, ?_⟩ <;> simp [rowKey, h1 k]
  · intro tx htx k hkey
    rw [hkeys]
    exact hperm.mem_iff.mpr (h3 tx htx k hkey)
  · rw [hkeys]
    exact List.sorted_insertionSort keyLE _
  · have hmap : (seriesOf st).map (fun r => r.income) =
        (List.insertionSort keyLE (st.monthly.map Prod.fst)).map
          (fun k => (lookupD {} st.monthly k).income) := by
      unfold seriesOf
      rw [List.map_map]
      rfl
    have hsum : ((List.insertionSort keyLE (st.monthly.map Prod.fst)).map
          (fun k => (lookupD {} st.monthly k).income)).sum =
        ((st.monthly.map Prod.fst).map
          (fun k => (lookupD {} st.monthly k).income)).sum :=
      (hperm.map _).sum_eq
    have hlk : ((st.monthly.map Prod.fst).map
          (fun k => (lookupD {} st.monthly k).income)).sum =
        (st.monthly.map (fun q => q.2.income)).sum := by
      simpa using sum_map_lookup {} (fun b => b.income) st.monthly h2
    rw [hmap, hsum, hlk, h4, h7, incomeAll]
    exact amountsSum_filter_split isDated isIncome txs
  · have hmap : (seriesOf st).map (fun r => r.expense) =
        (List.insertionSort keyLE (st.monthly.map Prod.fst)).map
          (fun k => (lookupD {} st.monthly k).expense) := by
      unfold seriesOf
      rw [List.map_map]
      rfl
    have hsum : ((List.insertionSort keyLE (st.monthly.map Prod.fst)).map
          (fun k => (lookupD {} st.monthly k).expense)).sum =
        ((st.monthly.map Prod.fst).map
          (fun k => (lookupD {} st.monthly k).expense)).sum :=
      (hperm.map _).sum_eq
    have hlk : ((st.monthly.map Prod.fst).map
          (fun k => (lookupD {} st.monthly k).expense)).sum =
        (st.monthly.map (fun q => q.2.expense)).sum := by
      simpa using sum_map_lookup {} (fun b => b.expense) st.monthly h2
    rw [hmap, hsum, hlk, h5, h8, regularAll]
    exact amountsSum_filter_split isDated _ txs
  · have hmap : (seriesOf st).map (fun r => r.outlier_expense) =
        (List.insertionSort keyLE (st.monthly.map Prod.fst)).map
          (fun k => (lookupD {} st.monthly k).outlier_expense) := by
      unfold seriesOf
      rw [List.map_map]
      rfl
    have hsum : ((List.insertionSort keyLE (st.monthly.map Prod.fst)).map
          (fun k => (lookupD {} st.monthly k).outlier_expense)).sum =
        ((st.monthly.map Prod.fst).map
          (fun k => (lookupD {} st.monthly k).outlier_expense)).sum :=
      (hperm.map _).sum_eq
    have hlk : ((st.monthly.map Prod.fst).map
          (fun k => (lookupD {} st.monthly k).outlier_expense)).sum =
        (st.monthly.map (fun q => q.2.outlier_expense)).sum := by
      simpa using sum_map_lookup {} (fun b => b.outlier_expense) st.monthly h2
    rw [hmap, hsum, hlk, h6, h9, outlierAll]
    exact amountsSum_filter_split isDated _ txs

/-- C2: for every transaction list, no outlier is detected when fewer
than 3 expense transactions exist; otherwise an expense transaction is
classified as outlier iff its amount strictly exceeds
`max(10 × median_expense, 50000)` with the median taken at index
`floor(n/2)` of the sorted expense amounts — so no outlier-classified
amount is ≤ the threshold and every regular-classified expense amount is
≤ the threshold. -/
theorem outlier_threshold_invariant (txs : List Tx) :
    ((expenseAmounts txs).length < 3 → ∀ tx, isOutlierTx txs tx = false)
    ∧ (2 < (expenseAmounts txs).length → ∀ tx ∈ txs, ttype tx = "expense" →
        (isOutlierTx txs tx = true ↔
          max (((List.insertionSort (fun a b => a ≤ b) (expenseAmounts txs)).getD
            ((expenseAmounts txs).length / 2) 0) * 10) 50000 < tx.amount)) := by
  constructor
  · intro hlen tx
    have hno : ¬ 2 < (expenseAmounts txs).length := by omega
    simp [isOutlierTx, outlierAmounts, outlierThreshold, hno]
  · intro hlen tx htx htype
    have hmem : tx.amount ∈ expenseAmounts txs := by
      unfold expenseAmounts
      exact List.mem_map.mpr ⟨tx, List.mem_filter.mpr ⟨htx, by simp [htype]⟩, rfl⟩
    unfold isOutlierTx outlierAmounts outlierThreshold
    simp only [htype]
    simp [hlen, List.mem_filter, hmem]

section
attribute [local semireducible] Rat.mul Rat.add Rat.sub Rat.inv

theorem outlier_threshold_invariant_witness :
    2 < (expenseAmounts
      [⟨Option.some "expense", 1000, Option.some "Food", PyDate.none⟩,
       ⟨Option.some "expense", 1000, Option.some "Food", PyDate.none⟩,
       ⟨Option.some "expense", 1000, Option.some "Food", PyDate.none⟩,
       ⟨Option.some "expense", 100000, Option.some "TV", PyDate.none⟩]).length
    ∧ isOutlierTx
      [⟨Option.some "expense", 1000, Option.some "Food", PyDate.none⟩,
       ⟨Option.some "expense", 1000, Option.some "Food", PyDate.none⟩,
       ⟨Option.some "expense", 1000, Option.some "Food", PyDate.none⟩,
       ⟨Option.some "expense", 100000, Option.some "TV", PyDate.none⟩]
      ⟨Option.some "expense", 100000, Option.some "TV", PyDate.none⟩ = true := by
  refine ⟨by decide, ?_⟩
  exact ((outlier_threshold_invariant _).2 (by decide)
    ⟨Option.some "expense", 100000, Option.some "TV", PyDate.none⟩ (by decide)
    (by decide)).mpr (by decide)


/-- C3: every transaction with a valid date contributes to exactly one
monthly bucket, the one keyed by its `(year, month)` (rows have pairwise
distinct keys, each row's fields are exactly the filtered sums at its key,
and every dated transaction's key appears); the sum of the bucket totals
plus the unknown-date fallback contributions equals the corresponding
global total exactly; and the monthly series is sorted ascending by
`(year, month)`. -/
theorem monthly_bucket_coverage (transactions : List Tx) :
    (((computeBasicAggregates transactions).monthly_series.map rowKey).Nodup)
    ∧ (∀ r ∈ (computeBasicAggregates transactions).monthly_series,
        r.income = incomeAtKey (normalizeTransactions transactions) (rowKey r) ∧
        r.expense = regularAtKey (isOutlierTx (normalizeTransactions transactions))
          (normalizeTransactions transactions) (rowKey r) ∧
        r.outlier_expense = outlierAtKey (isOutlierTx (normalizeTransactions transactions))
          (normalizeTransactions transactions) (rowKey r))
    ∧ (∀ tx ∈ normalizeTransactions transactions, ∀ k, txKey? tx = Option.some k →
        k ∈ (computeBasicAggregates transactions).monthly_series.map rowKey)
    ∧ List.Pairwise keyLE
        ((computeBasicAggregates transactions).monthly_series.map rowKey)
    ∧ (computeBasicAggregates transactions).total_income =
        (((computeBasicAggregates transactions).monthly_series.map
          (fun r => r.income)).sum) + undatedIncome (normalizeTransactions transactions)
    ∧ (computeBasicAggregates transactions).total_expense =
        (((computeBasicAggregates transactions).monthly_series.map
          (fun r => r.expense)).sum) +
          undatedRegular (isOutlierTx (normalizeTransactions transactions))
            (normalizeTransactions transactions)
    ∧ (computeBasicAggregates transactions).total_outlier_expense =
        (((computeBasicAggregates transactions).monthly_series.map
          (fun r => r.outlier_expense)).sum) +
          undatedOutlier (isOutlierTx (normalizeTransactions transactions))
            (normalizeTransactions transactions) := by
  have h := seriesOf_spec (isOutlierTx (normalizeTransactions transactions))
    (normalizeTransactions transactions) (aggStateOf transactions)
    (aggStateOf_inv transactions)
  rw [computeBasicAggregates_eq]
  exact h

theorem monthly_bucket_coverage_witness :
    (((computeBasicAggregates
      [⟨Option.some "income", 1000, Option.some "Salary", PyDate.dt ⟨2024, 1, 1, 0⟩⟩,
       ⟨Option.some "expense", 100, Option.some "Food", PyDate.dt ⟨2024, 1, 5, 0⟩⟩]).monthly_series.map
        rowKey).Nodup)
    ∧ ((⟨2024, 1, 1000, 100, 0⟩ : MonthRow).income =
        incomeAtKey (normalizeTransactions
          [⟨Option.some "income", 1000, Option.some "Salary", PyDate.dt ⟨2024, 1, 1, 0⟩⟩,
           ⟨Option.some "expense", 100, Option.some "Food", PyDate.dt ⟨2024, 1, 5, 0⟩⟩])
          (rowKey (⟨2024, 1, 1000, 100, 0⟩ : MonthRow)))
    ∧ ((2024, 1) ∈ (computeBasicAggregates
[⟨Option.some "income", 1000, Option.some "Salary", PyDate.dt ⟨2024, 1, 1, 0⟩⟩,
 ⟨Option.some "expense", 100, Option.some "Food", PyDate.dt ⟨2024, 1, 5, 0⟩⟩]).monthly_series.map rowKey) := by
  refine ⟨(monthly_bucket_coverage _).1, ?_, ?_⟩
  · exact ((monthly_bucket_coverage _).2.1 ⟨2024, 1, 1000, 100, 0⟩ (by decide)).1
  · exact (monthly_bucket_coverage _).2.2.1
      ⟨Option.some "income", 1000, Option.some "Salary", PyDate.dt ⟨2024, 1, 1, 0⟩⟩
      (by decide) (2024, 1) (by decide)

theorem computeBasicAggregates_categories (transactions : List Tx) :
    ∀ c, lookupD 0 (computeBasicAggregates transactions).categories c =
      catAtSum (isOutlierTx (normalizeTransactions transactions))
        (normalizeTransactions transactions) c := by
  have h := aggStateOf_inv transactions
  rw [computeBasicAggregates_eq]
  exact h.2.2.2.2.2.2.2.2.2

/-- C9: a transaction whose lower-cased kind is neither "income" nor
"expense" is never outlier-classified, is counted by the regular-expense
global total (and, when dated, by its bucket's regular-expense total),
and never contributes to the per-category totals. -/
theorem unknown_kind_is_regular_expense (transactions : List Tx) :
    ∀ tx ∈ normalizeTransactions transactions,
      ttype tx ≠ "income" → ttype tx ≠ "expense" →
      isOutlierTx (normalizeTransactions transactions) tx = false
      ∧ (computeBasicAggregates transactions).total_expense =
          regularAll (isOutlierTx (normalizeTransactions transactions))
            (normalizeTransactions transactions)
      ∧ tx ∈ (normalizeTransactions transactions).filter
          (fun t => !(isIncome t) &&
            !(isOutlierTx (normalizeTransactions transactions) t))
      ∧ (∀ k, txKey? tx = Option.some k →
          k ∈ (computeBasicAggregates transactions).monthly_series.map rowKey ∧
          (∀ r ∈ (computeBasicAggregates transactions).monthly_series,
            rowKey r = k →
            r.expense = regularAtKey (isOutlierTx (normalizeTransactions transactions))
              (normalizeTransactions transactions) k) ∧
          tx ∈ (normalizeTransactions transactions).filter
            (fun t => datedAt k t && !(isIncome t) &&
              !(isOutlierTx (normalizeTransactions transactions) t)))
      ∧ (∀ c, lookupD 0 (computeBasicAggregates transactions).categories c =
          catAtSum (isOutlierTx (normalizeTransactions transactions))
            (normalizeTransactions transactions) c)
      ∧ (∀ c, tx ∉ (normalizeTransactions transactions).filter
          (fun t => (ttype t == "expense" &&
            !(isOutlierTx (normalizeTransactions transactions) t)) &&
            catOf t == c)) := by
  intro tx htx hni hne
  have hexp : (ttype tx == "expense") = false := by simp [hne]
  have hinc : (isIncome tx) = false := by simp [isIncome, hni]
  have hout : isOutlierTx (normalizeTransactions transactions) tx = false := by
    simp [isOutlierTx, hne]
  have hspec := seriesOf_spec (isOutlierTx (normalizeTransactions transactions))
    (normalizeTransactions transactions) (aggStateOf transactions)
    (aggStateOf_inv transactions)
  refine ⟨hout, ?_, ?_, ?_, computeBasicAggregates_categories transactions, ?_⟩
  · have h := (aggStateOf_inv transactions).2.2.2.2.2.2.2.1
    rw [computeBasicAggregates_eq]
    exact h
  · exact List.mem_filter.mpr ⟨htx, by simp [hinc, hout]⟩
  · intro k hkey
    refine ⟨?_, ?_, ?_⟩
    · rw [computeBasicAggregates_eq]
      exact hspec.2.2.1 tx htx k hkey
    · intro r hr hrk
      rw [computeBasicAggregates_eq] at hr
      dsimp only at hr
      have h2 := (hspec.2.1 r hr).2.1
      rw [hrk] at h2
      exact h2
    · exact List.mem_filter.mpr ⟨htx, by simp [datedAt, hkey, hinc, hout]⟩
  · intro c
    intro hmem
    have := (List.mem_filter.mp hmem).2
    simp [hexp] at this

theorem unknown_kind_witness :
    isOutlierTx (normalizeTransactions
      [⟨Option.some "transfer", 50, Option.some "Misc", PyDate.dt ⟨2024, 2, 10, 0⟩⟩,
       ⟨Option.some "income", 1000, Option.some "Salary", PyDate.dt ⟨2024, 2, 1, 0⟩⟩])
      ⟨Option.some "transfer", 50, Option.some "Misc", PyDate.dt ⟨2024, 2, 10, 0⟩⟩ = false
    ∧ ⟨Option.some "transfer", 50, Option.some "Misc", PyDate.dt ⟨2024, 2, 10, 0⟩⟩ ∈
        (normalizeTransactions
          [⟨Option.some "transfer", 50, Option.some "Misc", PyDate.dt ⟨2024, 2, 10, 0⟩⟩,
           ⟨Option.some "income", 1000, Option.some "Salary", PyDate.dt ⟨2024, 2, 1, 0⟩⟩]).filter
          (fun t => !(isIncome t) && !(isOutlierTx (normalizeTransactions
            [⟨Option.some "transfer", 50, Option.some "Misc", PyDate.dt ⟨2024, 2, 10, 0⟩⟩,
             ⟨Option.some "income", 1000, Option.some "Salary", PyDate.dt ⟨2024, 2, 1, 0⟩⟩]) t))
    ∧ (2024, 2) ∈ (computeBasicAggregates
        [⟨Option.some "transfer", 50, Option.some "Misc", PyDate.dt ⟨2024, 2, 10, 0⟩⟩,
         ⟨Option.some "income", 1000, Option.some "Salary", PyDate.dt ⟨2024, 2, 1, 0⟩⟩]).monthly_series.map
        rowKey := by
  have h := unknown_kind_is_regular_expense
    [⟨Option.some "transfer", 50, Option.some "Misc", PyDate.dt ⟨2024, 2, 10, 0⟩⟩,
     ⟨Option.some "income", 1000, Option.some "Salary", PyDate.dt ⟨2024, 2, 1, 0⟩⟩]
    ⟨Option.some "transfer", 50, Option.some "Misc", PyDate.dt ⟨2024, 2, 10, 0⟩⟩
    (by decide) (by decide) (by decide)
  exact ⟨h.1, h.2.2.1, (h.2.2.2.1 (2024, 2) (by decide)).1⟩

/-- C10: the `top_categories` list of the report's aggregates section has
at most 6 entries, is sorted in non-increasing order of summed regular
expense amount, and each entry is drawn from the category-totals
mapping. -/
theorem top_categories_spec (transactions : List Tx) :
    (topCategoriesOf (computeBasicAggregates transactions).categories).length ≤ 6
    ∧ List.Pairwise byValueDesc
        (topCategoriesOf (computeBasicAggregates transactions).categories)
    ∧ (∀ e ∈ topCategoriesOf (computeBasicAggregates transactions).categories,
        e ∈ (computeBasicAggregates transactions).categories) := by
  refine ⟨?_, ?_, ?_⟩
  · unfold topCategoriesOf
    rw [List.length_take]
    exact min_le_left _ _
  · unfold topCategoriesOf
    exact List.Pairwise.sublist (List.take_sublist _ _)
      (List.sorted_insertionSort byValueDesc _)
  · intro e he
    unfold topCategoriesOf at he
    have h1 : e ∈ List.insertionSort byValueDesc
        (computeBasicAggregates transactions).categories :=
      (List.take_sublist _ _).subset he
    exact (List.perm_insertionSort byValueDesc _).mem_iff.mp h1

theorem top_categories_witness :
    (topCategoriesOf (computeBasicAggregates
      [⟨Option.some "expense", 100, Option.some "Food", PyDate.dt ⟨2024, 1, 5, 0⟩⟩]).categories).length ≤ 6
    ∧ ("Food", 100) ∈ (computeBasicAggregates
      [⟨Option.some "expense", 100, Option.some "Food", PyDate.dt ⟨2024, 1, 5, 0⟩⟩]).categories := by
  refine ⟨(top_categories_spec _).1, ?_⟩
  exact (top_categories_spec _).2.2 ("Food", 100) (by decide)

theorem getD_map_range (f : Nat → ℚ) (n i : Nat) (h : i < n) :
    (((List.range n).map f).getD i 0) = f i := by
  rw [List.getD_eq_getElem?_getD]
  simp [List.getElem?_map, List.getElem?_range, h]

/-- C6: the forecaster returns exactly `periods` values; an empty series
yields all zeros; zero independent-variable variance yields slope 0; each
value is the clamped least-squares projection `max 0 (intercept + slope·x)`
for `x = n .. n+periods-1`, hence every value is non-negative; and the
series 100, 200, 300, 400 forecasts 500 for the next period. -/
theorem forecast_spec (monthly_series : List MonthRow) (periods : Nat) :
    (simpleLinearForecast monthly_series periods).length = periods
    ∧ (monthly_series = [] →
        simpleLinearForecast monthly_series periods = List.replicate periods 0)
    ∧ (∀ i, i < periods →
        (simpleLinearForecast monthly_series periods).getD i 0 =
          max 0 (olsIntercept (monthly_series.map (fun m => m.expense)) +
            olsSlope (monthly_series.map (fun m => m.expense)) *
              ((monthly_series.length : ℚ) + (i : ℚ))))
    ∧ (∀ x ∈ simpleLinearForecast monthly_series periods, 0 ≤ x)
    ∧ (olsDenom (monthly_series.map (fun m => m.expense)).length = 0 →
        olsSlope (monthly_series.map (fun m => m.expense)) = 0)
    ∧ simpleLinearForecast exampleSeries 4 = [500, 600, 700, 800] := by
  refine ⟨?_, ?_, ?_, ?_, ?_, ?_⟩
  · unfold simpleLinearForecast
    by_cases h : (monthly_series.map (fun m => m.expense)).length = 0
    · rw [if_pos h]
      exact List.length_replicate _ _
    · rw [if_neg h, List.length_map, List.length_range]
  · intro h
    subst h
    simp [simpleLinearForecast]
  · intro i hi
    unfold simpleLinearForecast
    by_cases h : (monthly_series.map (fun m => m.expense)).length = 0
    · have hs : monthly_series = [] := by
        simpa using List.eq_nil_of_length_eq_zero (by simpa using h)
      subst hs
      simp [olsIntercept, olsSlope, olsDenom, List.getD_eq_getElem?_getD,
        List.getElem?_replicate, hi]
    · rw [if_neg h]
      rw [getD_map_range _ _ _ hi, List.length_map]
  · intro x hx
    unfold simpleLinearForecast at hx
    by_cases h : (monthly_series.map (fun m => m.expense)).length = 0
    · simp [h] at hx
      obtain ⟨-, hx⟩ := hx
      simp [hx]
    · simp only [h, if_false] at hx
      obtain ⟨i, hi, hxi⟩ := List.mem_map.mp hx
      rw [← hxi]
      exact le_max_left _ _
  · intro h
    rw [List.length_map] at h
    simp [olsSlope, List.length_map, h]
  · decide

theorem forecast_spec_witness :
    simpleLinearForecast [] 2 = List.replicate 2 0
    ∧ (simpleLinearForecast exampleSeries 4).getD 0 0 =
        max 0 (olsIntercept (exampleSeries.map (fun m => m.expense)) +
          olsSlope (exampleSeries.map (fun m => m.expense)) *
            ((exampleSeries.length : ℚ) + ((0 : Nat) : ℚ)))
    ∧ (0 : ℚ) ≤ 500
    ∧ olsSlope (([⟨2024, 1, 0, 7, 0⟩] : List MonthRow).map (fun m => m.expense)) = 0 := by
  refine ⟨(forecast_spec [] 2).2.1 rfl, ?_, ?_, ?_⟩
  · exact (forecast_spec exampleSeries 4).2.2.1 0 (by decide)
  · exact (forecast_spec exampleSeries 4).2.2.2.1 500 (by decide)
  · exact (forecast_spec [⟨2024, 1, 0, 7, 0⟩] 1).2.2.2.2.1 (by decide)

/-- C4 counterexample: the claim that an analysis run leaves every input
record unchanged is false — the normalization pass of
compute_basic_aggregates overwrites a string-valued date field in place
(here an unparseable string becomes None). -/
theorem engine_mutates_input_records :
    normalizeTransactions
      [⟨Option.some "expense", 5, Option.none, PyDate.str "not-a-date"⟩] ≠
    [⟨Option.some "expense", 5, Option.none, PyDate.str "not-a-date"⟩] := by
  decide

/-- C4 amended: the engine leaves the `type`, `amount` and `category`
fields of every record unchanged, and a record whose date field is not a
string is unchanged entirely; only string-valued date fields are
overwritten (with the parsed datetime, or None on parse failure). -/
theorem normalization_frame (tx : Tx) :
    (normalizeTx tx).type = tx.type
    ∧ (normalizeTx tx).amount = tx.amount
    ∧ (normalizeTx tx).category = tx.category
    ∧ ( PyDate.isStr tx.date = false → normalizeTx tx = tx)
    ∧ (∀ s, tx.date = PyDate.str s →
        (normalizeTx tx).date = (match parseDate s with
          | Option.some d => PyDate.dt d
          | Option.none => PyDate.none)) := by
  cases htx : tx.date with
  | dt d => simp [normalizeTx, htx, PyDate.isStr]
  | str s0 =>
    refine ⟨?_, ?_, ?_, ?_, ?_⟩ <;>
      simp [normalizeTx, htx, PyDate.isStr]
  | none => simp [normalizeTx, htx, PyDate.isStr]

theorem normalization_frame_witness :
    (normalizeTx ⟨Option.some "income", 9, Option.none,
        PyDate.dt ⟨2024, 3, 1, 0⟩⟩).amount = 9
    ∧ normalizeTx ⟨Option.some "income", 9, Option.none, PyDate.dt ⟨2024, 3, 1, 0⟩⟩ =
        ⟨Option.some "income", 9, Option.none, PyDate.dt ⟨2024, 3, 1, 0⟩⟩
    ∧ (normalizeTx ⟨Option.some "expense", 7, Option.none,
        PyDate.str "2024-01-05"⟩).date =
        (match parseDate "2024-01-05" with
          | Option.some d => PyDate.dt d
          | Option.none => PyDate.none) := by
  refine ⟨(normalization_frame _).2.1, ?_, ?_⟩
  · exact (normalization_frame _).2.2.2.1 (by decide)
  · exact (normalization_frame _).2.2.2.2 "2024-01-05" (by decide)

theorem buildRecs_eq (d e s : ℚ) (v dv : ℝ) :
    buildRecommendations d e s v dv =
      (if 1 / 2 < d then [recDTI] else []) ++
      ((if e < 1 then [recFund] else []) ++
      ((if (2 / 5 : ℝ) < v then [recVolatile] else []) ++
      ((if dv < (2 / 5 : ℝ) then [recDiversify] else []) ++
      (if s ≤ 0 then [recSavings] else [])))) := by
  unfold buildRecommendations
  split_ifs <;> simp

theorem ite_cons_sublist (c : Prop) [Decidable c] (a : String) (l1 l2 : List String)
    (h : List.Sublist l1 l2) :
    List.Sublist ((if c then [a] else []) ++ l1) (a :: l2) := by
  split_ifs
  · simpa using List.Sublist.cons₂ a h
  · exact List.Sublist.cons a h

/-- C7 counterexample: with metric values on which none of the five
recommendation conditions holds (dti = 0.1, emergency fund months = 27,
volatility = 0, diversification = 1, savings = 900), the engine's
recommendation list is empty — there is no positive affirmation string in
the code, contradicting the claim that the list then holds exactly one
affirmation entry. -/
theorem no_affirmation_when_no_rule_fires :
    ¬((1 : ℚ) / 2 < 1 / 10) ∧ ¬((27 : ℚ) < 1) ∧ ¬((2 / 5 : ℝ) < 0) ∧
    ¬((1 : ℝ) < 2 / 5) ∧ ¬((900 : ℚ) ≤ 0) ∧
    buildRecommendations (1 / 10) 27 900 0 1 = [] := by
  refine ⟨by norm_num, by norm_num, by norm_num, by norm_num, by norm_num, ?_⟩
  unfold buildRecommendations
  dsimp only
  rw [if_neg (by norm_num), if_neg (by norm_num), if_neg (by norm_num),
    if_neg (by norm_num), if_neg (by norm_num)]

/-- C7 amended: the recommendation list is produced by the five
independently gated rules evaluated in source order — the result is a
sublist of the five rule strings in that order, each string is present
iff its condition holds — and when none of the five conditions holds the
list is empty (the code emits no affirmation string). -/
theorem recommendation_rules (d e s : ℚ) (v dv : ℝ) :
    List.Sublist (buildRecommendations d e s v dv)
      [recDTI, recFund, recVolatile, recDiversify, recSavings]
    ∧ (recDTI ∈ buildRecommendations d e s v dv ↔ 1 / 2 < d)
    ∧ (recFund ∈ buildRecommendations d e s v dv ↔ e < 1)
    ∧ (recVolatile ∈ buildRecommendations d e s v dv ↔ (2 / 5 : ℝ) < v)
    ∧ (recDiversify ∈ buildRecommendations d e s v dv ↔ dv < (2 / 5 : ℝ))
    ∧ (recSavings ∈ buildRecommendations d e s v dv ↔ s ≤ 0)
    ∧ ((¬(1 / 2 < d) ∧ ¬(e < 1) ∧ ¬((2 / 5 : ℝ) < v) ∧ ¬(dv < (2 / 5 : ℝ)) ∧
        ¬(s ≤ 0)) → buildRecommendations d e s v dv = []) := by
  rw [buildRecs_eq]
  refine ⟨?_, ?_, ?_, ?_, ?_, ?_, ?_⟩
  · refine ite_cons_sublist _ _ _ _ (ite_cons_sublist _ _ _ _
      (ite_cons_sublist _ _ _ _ (ite_cons_sublist _ _ _ _ ?_)))
    split_ifs
    · exact List.Sublist.refl _
    · exact List.nil_sublist _
  · split_ifs <;>
      simp_all [recDTI, recFund, recVolatile, recDiversify, recSavings]
  · split_ifs <;>
      simp_all [recDTI, recFund, recVolatile, recDiversify, recSavings]
  · split_ifs <;>
      simp_all [recDTI, recFund, recVolatile, recDiversify, recSavings]
  · split_ifs <;>
      simp_all [recDTI, recFund, recVolatile, recDiversify, recSavings]
  · split_ifs <;>
      simp_all [recDTI, recFund, recVolatile, recDiversify, recSavings]
  · intro h
    obtain ⟨n1, n2, n3, n4, n5⟩ := h
    rw [if_neg n1, if_neg n2, if_neg n3, if_neg n4, if_neg n5]
    rfl

theorem recommendation_rules_witness :
    buildRecommendations (1 / 5) 12 300 0 1 = [] :=
  (recommendation_rules (1 / 5) 12 300 0 1).2.2.2.2.2.2
    ⟨by norm_num, by norm_num, by norm_num, by norm_num, by norm_num⟩

/-- C8 counterexample: for the uniform two-category mapping with spend 1
in each category, the diversification score is not 1 — the 1e-12 guard
added inside the logarithm makes the computed entropy strictly smaller
than log 2, so the normalized score stays strictly below 1, contradicting
the claim that a uniform positive distribution scores exactly 1. -/
theorem diversification_uniform_not_one :
    computeDiversificationScore [("A", 1), ("B", 1)] ≠ Option.some 1 := by
  have hlog2 : (0 : ℝ) < Real.log 2 := Real.log_pos (by norm_num)
  intro hcontra
  unfold computeDiversificationScore at hcontra
  norm_num [epsLog] at hcontra
  rw [if_neg (show ¬([(1 : ℚ) / 2, 1 / 2] = []) by simp),
    if_neg (not_le.mpr hlog2), Option.some_inj,
    div_eq_one_iff_eq (ne_of_gt hlog2)] at hcontra
  have hmono : Real.log (1 / 2 : ℝ) <
      Real.log ((500000000001 : ℝ) / 1000000000000) :=
    Real.log_lt_log (by norm_num) (by norm_num)
  have hhalf : Real.log (1 / 2 : ℝ) = -Real.log 2 := by
    rw [one_div, Real.log_inv]
  linarith [hmono, hhalf, hcontra]


/-- C8 amended: the diversification score is 0 when no category has
positive spend; it is 1 when the mapping has exactly one positive value
summing to the whole total (the single-share degenerate case); and for a
uniform distribution of positive spend across k ≥ 2 categories the score
is defined but strictly BELOW 1 because of the 1e-12 guard added inside
the logarithm, so the uniform-equals-1 clause of the claim fails. -/
theorem diversification_cases (cats : List (String × ℚ)) (a : ℚ) (k : Nat) (v : ℚ) :
    ((∀ pq ∈ cats, pq.2 ≤ 0) → computeDiversificationScore cats = Option.some 0)
    ∧ (((cats.map (fun p => p.2)).filter (fun x => 0 < x) = [a] →
        (cats.map (fun p => p.2)).sum = a → 0 < a →
        computeDiversificationScore cats = Option.some 1))
    ∧ (2 ≤ k → 0 < v →
        (computeDiversificationScore (uniformCats k v)).isSome = true
        ∧ (computeDiversificationScore (uniformCats k v)).getD 1 < 1) := by
  refine ⟨?_, ?_, ?_⟩
  · intro h
    unfold computeDiversificationScore
    dsimp only
    have hfil : (cats.map (fun p => p.2)).filter (fun x => decide (0 < x)) = [] := by
      apply List.filter_eq_nil_iff.mpr
      intro x hx
      obtain ⟨pq, hpq, hpx⟩ := List.mem_map.mp hx
      simp [← hpx]
      exact h pq hpq
    rw [hfil]
    simp
  · intro hfil hsum ha
    unfold computeDiversificationScore
    dsimp only
    rw [hfil, hsum, if_neg (ne_of_gt ha)]
    have h1 : List.map (fun x => x / a) [a] = [1] := by
      simp [div_self (ne_of_gt ha)]
    rw [h1]
    norm_num [epsLog, Real.log_one]
  · intro hk hv
    have hkpos : 0 < k := by omega
    have hkR : (0 : ℝ) < (k : ℝ) := by exact_mod_cast hkpos
    have hmap : (uniformCats k v).map (fun p => p.2) = List.replicate k v := by
      simp [uniformCats, List.map_map, Function.comp_def, List.map_const']
    have hsum : (List.replicate k v).sum = (k : ℚ) * v := by
      rw [List.sum_replicate, nsmul_eq_mul]
    have hkv : (0 : ℚ) < (k : ℚ) * v := by positivity
    have hfil : (List.replicate k v).filter (fun x => decide (0 < x)) =
        List.replicate k v := by
      apply List.filter_eq_self.mpr
      intro b hb
      rw [List.mem_replicate] at hb
      simp [hb.2, hv]
    have hshare : v / ((k : ℚ) * v) = 1 / (k : ℚ) := by
      rw [div_eq_div_iff (by positivity) (by positivity)]
      ring
    unfold computeDiversificationScore
    dsimp only
    rw [hmap, hsum, if_neg (ne_of_gt hkv), hfil, List.map_replicate, hshare]
    rw [if_neg (show ¬(List.replicate k ((1 : ℚ) / (k : ℚ)) = []) by
      simp
      omega)]
    have hpos : (0 : ℚ) < 1 / (k : ℚ) := by positivity
    have heps : (0 : ℚ) < epsLog := by norm_num [epsLog]
    rw [if_neg (show ¬((List.replicate k ((1 : ℚ) / (k : ℚ))).any
        (fun s => decide (s + epsLog ≤ 0)) = true) by
      rw [List.any_replicate]
      simp
      intro
      positivity)]
    have hlogk : (0 : ℝ) < Real.log (k : ℝ) := by
      apply Real.log_pos
      have h2 : (2 : ℝ) ≤ (k : ℝ) := by exact_mod_cast hk
      linarith
    rw [List.map_replicate, List.sum_replicate, List.length_replicate,
      if_neg (not_le.mpr hlogk)]
    refine ⟨rfl, ?_⟩
    rw [Option.getD_some, div_lt_one hlogk, nsmul_eq_mul]
    have hcast : ((((1 : ℚ) / (k : ℚ)) : ℚ) : ℝ) = ((k : ℝ))⁻¹ := by
      push_cast
      rw [one_div]
    rw [hcast]
    rw [← mul_assoc, mul_inv_cancel₀ (ne_of_gt hkR), one_mul]
    rw [neg_lt, ← Real.log_inv]
    apply Real.log_lt_log (inv_pos.mpr hkR)
    have hepsR : (0 : ℝ) < ((epsLog : ℚ) : ℝ) := by exact_mod_cast heps
    linarith

theorem diversification_cases_witness :
    computeDiversificationScore [("A", -3)] = Option.some 0
    ∧ computeDiversificationScore [("Food", 7), ("Rent", 0)] = Option.some 1
    ∧ (computeDiversificationScore (uniformCats 2 1)).getD 1 < 1 := by
  refine ⟨?_, ?_, ?_⟩
  · exact (diversification_cases [("A", -3)] 0 0 0).1 (by decide)
  · exact (diversification_cases [("Food", 7), ("Rent", 0)] 7 0 0).2.1
      (by decide) (by decide) (by decide)
  · exact ((diversification_cases [] 0 2 1).2.2 (by norm_num) (by norm_num)).2

/-- C5 amended: for a fixed transaction set, the risk-assessment,
predictions and aggregates sections of the report do not depend on the
ambient clock, and whether the run succeeds does not depend on it either;
only weekly_insights reads the clock.  Together with the purity of the
embedding this is the reproducibility that survives of the claim: the
report is a function of the transaction set and the ambient utcnow()
value — but that value is read ambiently inside compute_weekly_insights,
not passed as a parameter. -/
theorem clock_frame (transactions : List Tx) (c1 c2 : PyDateTime) :
    Option.map (fun r => r.risk_assessment) (buildAdvancedAnalytics transactions c1) =
      Option.map (fun r => r.risk_assessment) (buildAdvancedAnalytics transactions c2)
    ∧ Option.map (fun r => r.predictions) (buildAdvancedAnalytics transactions c1) =
        Option.map (fun r => r.predictions) (buildAdvancedAnalytics transactions c2)
    ∧ Option.map (fun r => r.aggregates) (buildAdvancedAnalytics transactions c1) =
        Option.map (fun r => r.aggregates) (buildAdvancedAnalytics transactions c2)
    ∧ (buildAdvancedAnalytics transactions c1).isSome =
        (buildAdvancedAnalytics transactions c2).isSome := by
  unfold buildAdvancedAnalytics
  dsimp only
  cases computeDiversificationScore (computeBasicAggregates transactions).categories with
  | none => exact ⟨rfl, rfl, rfl, rfl⟩
  | some d => exact ⟨rfl, rfl, rfl, rfl⟩

/-- C5 counterexample: the full analysis is NOT independent of the
ambient clock for a fixed transaction set — datetime.utcnow() is read
inside compute_weekly_insights, so two runs with different ambient times
produce different reports (here the weekly-insights section changes). -/
theorem clock_dependence :
    buildAdvancedAnalytics
      [⟨Option.some "misc", 5, Option.none, PyDate.dt ⟨2024, 1, 10, 0⟩⟩]
      ⟨2024, 1, 12, 0⟩ ≠
    buildAdvancedAnalytics
      [⟨Option.some "misc", 5, Option.none, PyDate.dt ⟨2024, 1, 10, 0⟩⟩]
      ⟨2024, 3, 1, 0⟩ := by
  intro h
  have h2 := congrArg (Option.map (fun r => r.weekly_insights)) h
  exact absurd h2 (by decide)

/-- C1 amended: for zero transactions the engine neither divides by zero
nor raises — it returns a complete report — but that report has
overall_risk_score 0.8 (not 0.3), risk_level "high" (not "medium"), fully
populated sub-reports, and four recommendations (not one); there is no
zero-transaction short-circuit in the code. -/
theorem zero_transactions_eval (now : PyDateTime) :
    (buildAdvancedAnalytics [] now).isSome = true
    ∧ Option.map (fun r => r.risk_assessment.overall_risk_score)
        (buildAdvancedAnalytics [] now) = Option.some ((4 : ℝ) / 5)
    ∧ Option.map (fun r => r.risk_assessment.risk_level)
        (buildAdvancedAnalytics [] now) = Option.some "high"
    ∧ Option.map (fun r => r.risk_assessment.recommendations)
        (buildAdvancedAnalytics [] now) =
        Option.some [recDTI, recFund, recDiversify, recSavings] := by
  have h1 : computeBasicAggregates [] = ⟨[], 0, 0, 0, [], []⟩ := rfl
  have h2 : computeSpendingVolatility [] = 0 := by
    simp [computeSpendingVolatility]
  have h3 : computeDiversificationScore [] = Option.some 0 := rfl
  unfold buildAdvancedAnalytics
  rw [h1]
  dsimp only
  rw [h2, h3]
  dsimp only
  refine ⟨rfl, ?_, ?_, ?_⟩
  · norm_num
  · norm_num
  · norm_num [buildRecommendations]

/-- C1 counterexample: at the concrete input of zero transactions the
report computed by the code has overall_risk_score 4/5 (not the claimed
0.3), risk_level "high" (not "medium"), and four recommendations (not
one). -/
theorem zero_transactions_not_default :
    Option.map (fun r => r.risk_assessment.overall_risk_score)
      (buildAdvancedAnalytics [] ⟨2024, 1, 1, 0⟩) = Option.some ((4 : ℝ) / 5)
    ∧ ¬(Option.map (fun r => r.risk_assessment.overall_risk_score)
      (buildAdvancedAnalytics [] ⟨2024, 1, 1, 0⟩) = Option.some ((3 : ℝ) / 10))
    ∧ Option.map (fun r => r.risk_assessment.risk_level)
      (buildAdvancedAnalytics [] ⟨2024, 1, 1, 0⟩) = Option.some "high"
    ∧ Option.map (fun r => List.length (r.risk_assessment.recommendations))
      (buildAdvancedAnalytics [] ⟨2024, 1, 1, 0⟩) = Option.some 4 := by
  have h1 : computeBasicAggregates [] = ⟨[], 0, 0, 0, [], []⟩ := rfl
  have h2 : computeSpendingVolatility [] = 0 := by
    simp [computeSpendingVolatility]
  have h3 : computeDiversificationScore [] = Option.some 0 := rfl
  refine ⟨?_, ?_, ?_, ?_⟩ <;>
    (unfold buildAdvancedAnalytics; rw [h1]; dsimp only; rw [h2, h3]; dsimp only)
  · norm_num
  · intro hcontra
    norm_num at hcontra
  · norm_num
  · norm_num [buildRecommendations]

end
